import Mathlib

/-!
Verification of the xlrd3 core (compound-document reader and workbook
record-stream parser) against its natural-language specification.

The Python sources `src/xlrd/book.py` and `src/xlrd/compdoc.py` are shallowly
embedded here: byte sequences become `List Nat` (each element a byte value),
Python exceptions become `Except String` (the string is a condensed form of
the exception class/message; dynamic parts of messages are elided), and the
mutable `Book` / `CompDoc` state is passed explicitly.  Definitions keep the
source's names wherever Lean allows it.  The file has two parts: first the
definitions embedding the code, then the theorems about them.
-/

namespace Xlrd

/-! ## Byte-sequence primitives -/

/-- Python slice `mem[a:b]` for byte sequences, with non-negative bounds
(the only form the embedded code uses): the elements with indices in
`[a, b)`, clamped to the sequence.  `(mem.drop a).take (b - a)` agrees with
Python for every `a b : Nat` (including `b ≤ a`, which yields `[]`). -/
def pySlice (mem : List Nat) (a b : Nat) : List Nat :=
  (mem.drop a).take (b - a)

/-- `unpack('<H', data[i:i+2])` on an in-bounds buffer: the unsigned
little-endian 16-bit value at offset `i`.  All uses below are guarded so the
buffer is long enough (as in the source, where `struct.error` cannot occur at
these call sites). -/
def unpack2LE (data : List Nat) (i : Nat) : Nat :=
  data.getD i 0 + 256 * data.getD (i + 1) 0

/-- One entry of `unpack('<Ni', ...)`: the signed little-endian 32-bit value
assembled from four bytes (two's complement). -/
def le32ToInt (b0 b1 b2 b3 : Nat) : Int :=
  let u := b0 + 256 * b1 + 65536 * b2 + 16777216 * b3
  if u < 2 ^ 31 then (u : Int) else (u : Int) - 2 ^ 32

/-- `unpack('<%di' % count, mem[offset:offset+4*count])`: `count` consecutive
signed little-endian 32-bit integers.  Call sites check the buffer length
first (a short buffer is a `struct.error` in the source). -/
def readSectorInts (mem : List Nat) (offset : Nat) : Nat → List Int
  | 0 => []
  | n + 1 =>
      le32ToInt (mem.getD offset 0) (mem.getD (offset + 1) 0)
        (mem.getD (offset + 2) 0) (mem.getD (offset + 3) 0)
        :: readSectorInts mem (offset + 4) n

/-! ## Record-code and BOF constants

`book.py` imports these names from the package's `biffh` module, whose file
is not among the sources; only their use sites are.  Modelled from the spec:
the spec's "record code" / "beginning-of-stream marker" constants are the
standard BIFF record codes that the byte patterns in the spec refer to. -/

/-- `book.py` line 28: `MY_EOF = 0xF00BAAA  # not a 16-bit number`. -/
def MY_EOF : Nat := 0xF00BAAA

/-- Modelled from the spec: stream-type code of the workbook-globals
substream (`biffh.XL_WORKBOOK_GLOBALS`). -/
def XL_WORKBOOK_GLOBALS : Nat := 0x5

/-- Modelled from the spec: stream-type code of a BIFF4W globals substream
(`biffh.XL_WORKBOOK_GLOBALS_4W`). -/
def XL_WORKBOOK_GLOBALS_4W : Nat := 0x100

/-- Modelled from the spec: stream-type code of a worksheet substream
(`biffh.XL_WORKSHEET`). -/
def XL_WORKSHEET : Nat := 0x10

/-- Modelled from the spec: record code of the encryption-marker record
(`biffh.XL_FILEPASS`). -/
def XL_FILEPASS : Nat := 0x2f

/-- Modelled from the spec: record code of the end-of-substream record
(`biffh.XL_EOF`). -/
def XL_EOF : Nat := 0x0a

/-- Modelled from the spec: the four accepted BOF opcodes
(`biffh.bofcodes = (0x809, 0x409, 0x209, 0x009)`). -/
def bofcodes : List Nat := [0x809, 0x409, 0x209, 0x009]

/-- Modelled from the spec: nominal BOF record lengths per opcode
(`biffh.boflen = {0x809: 16, 0x409: 8, 0x209: 6, 0x009: 4}`). -/
def boflen (opcode : Nat) : Nat :=
  if opcode = 0x809 then 16
  else if opcode = 0x409 then 8
  else if opcode = 0x209 then 6
  else 4

/-- `book.py` line 30: the eight supported BIFF versions. -/
def SUPPORTED_VERSIONS : List Nat := [80, 70, 50, 45, 40, 30, 21, 20]

/-! ## Record cursor (`Book.get2bytes`, `Book.get_record_parts`) -/

/-- `Book.get2bytes` (`book.py` lines 648-656): read up to two bytes at the
cursor, advance the cursor by the number of bytes actually read, and return
`MY_EOF` when fewer than two bytes remain, otherwise the little-endian
16-bit value `(hi << 8) | lo`.  Returns `(value, new position)`. -/
def get2bytes (mem : List Nat) (pos : Nat) : Nat × Nat :=
  match pySlice mem pos (pos + 2) with
  | [lo, hi] => ((hi <<< 8) ||| lo, pos + 2)
  | short => (MY_EOF, pos + short.length)

/-- `Book.get_record_parts` (`book.py` lines 658-665): read a 4-byte
little-endian record header `(code, length)` followed by `length` payload
bytes, advancing the cursor past the payload.  When fewer than 4 header
bytes remain, `unpack('<HH', mem[pos:pos+4])` receives a short buffer and
raises `struct.error`; that exception is modelled as `.error`.
Returns `(code, length, data, new position)`. -/
def get_record_parts (mem : List Nat) (pos : Nat) :
    Except String (Nat × Nat × List Nat × Nat) :=
  match pySlice mem pos (pos + 4) with
  | [b0, b1, b2, b3] =>
      let code := b0 + 256 * b1
      let length := b2 + 256 * b3
      let data := pySlice mem (pos + 4) (pos + 4 + length)
      .ok (code, length, data, pos + 4 + length)
  | _ => .error "struct.error: unpack requires a buffer of 4 bytes"

/-! ## BOF / version detection (`Book.getbof`) -/

/-- The version-number computation of `Book.getbof` (`book.py` lines
1220-1240): maps `version1 = opcode >> 8` together with the `version2`
word (and, for `version1 = 0x08`, the build/year sub-fields) to a BIFF
version number, `0` when unrecognized. -/
def bofVersion (version1 version2 build year : Nat) : Nat :=
  if version1 = 0x08 then
    if version2 = 0x0600 then 80
    else if version2 = 0x0500 then
      if year < 1994 ∨ build = 2412 ∨ build = 3218 ∨ build = 3321 then 50
      else 70
    else if version2 = 0x0000 then 21
    else if version2 = 0x0007 then 21
    else if version2 = 0x0200 then 21
    else if version2 = 0x0300 then 30
    else if version2 = 0x0400 then 40
    else 0
  else if version1 = 0x04 then 40
  else if version1 = 0x02 then 30
  else if version1 = 0x00 then 21
  else 0

/-- `Book.getbof` (`book.py` lines 1187-1256).  Reads the BOF record at
`position` in `mem`, decodes the version, cross-checks the stream type
against `rqd_stream`, and returns `(version, new position)` on success.
`bof_error(msg)` raises `XLRDError('Unsupported format, or corrupt file: '
+ msg)`; the dynamic byte dumps inside some messages are elided. -/
def getbof (mem : List Nat) (position : Nat) (rqd_stream : Nat) :
    Except String (Nat × Nat) :=
  let opcodeP := get2bytes mem position
  let opcode := opcodeP.1
  if opcode = MY_EOF then
    .error "Unsupported format, or corrupt file: Expected BOF record; met end of file"
  else if opcode ∉ bofcodes then
    .error "Unsupported format, or corrupt file: Expected BOF record; found other bytes"
  else
    let lengthP := get2bytes mem opcodeP.2
    let length := lengthP.1
    if length = MY_EOF then
      .error "Unsupported format, or corrupt file: Incomplete BOF record[1]; met end of file"
    else if ¬(4 ≤ length ∧ length ≤ 20) then
      .error "Unsupported format, or corrupt file: Invalid length for BOF record"
    else
      -- `padding = b'\0' * max(0, boflen[opcode] - length)` (Nat subtraction
      -- is the `max(0, ...)`); `data = self.read(self._position, length)`
      let padding := List.replicate (boflen opcode - length) 0
      let data0 := pySlice mem lengthP.2 (lengthP.2 + length)
      let pos3 := lengthP.2 + data0.length
      if data0.length < length then
        .error "Unsupported format, or corrupt file: Incomplete BOF record[2]; met end of file"
      else
        let data := data0 ++ padding
        let version1 := opcode >>> 8
        let version2 := unpack2LE data 0
        let streamtype := unpack2LE data 2
        let build := if version1 = 0x08 then unpack2LE data 4 else 0
        let year := if version1 = 0x08 then unpack2LE data 6 else 0
        let version0 := bofVersion version1 version2 build year
        let version :=
          if version0 = 40 ∧ streamtype = XL_WORKBOOK_GLOBALS_4W then 45 else version0
        let got_globals := streamtype = XL_WORKBOOK_GLOBALS ∨
          (version = 45 ∧ streamtype = XL_WORKBOOK_GLOBALS_4W)
        if (rqd_stream = XL_WORKBOOK_GLOBALS ∧ got_globals) ∨ streamtype = rqd_stream then
          .ok (version, pos3)
        else if version < 50 ∧ streamtype = XL_WORKSHEET then
          .ok (version, pos3)
        else if 50 ≤ version ∧ streamtype = 0x0100 then
          .error "Unsupported format, or corrupt file: Workspace file -- no spreadsheet data"
        else
          .error "Unsupported format, or corrupt file: BOF not workbook/worksheet"

/-- The version acceptance check of `open_workbook_xls` (`book.py` lines
74-81): a zero version (Python falsy) fails with "Can't determine file's
BIFF version", a version outside `SUPPORTED_VERSIONS` fails with an
unsupported-version error. -/
def open_workbook_version_check (mem : List Nat) : Except String Nat :=
  match getbof mem 0 XL_WORKBOOK_GLOBALS with
  | .error e => .error e
  | .ok (biff_version, _) =>
      if biff_version = 0 then .error "Can't determine file's BIFF version"
      else if biff_version ∉ SUPPORTED_VERSIONS then
        .error "BIFF version is not supported"
      else .ok biff_version

/-! ## Book sheet access and resource release -/

/-- The data the claims need of a `sheet.Sheet` object: constructed in
`Book.get_sheet` as `Sheet(self, self._position, self._sheet_names[sh_number],
sh_number)`.  The sheet's record decoding (`sh.read`, in `sheet.py`) is the
external sheet decoder, outside the specified core, and is not modelled. -/
structure Sheet where
  position : Nat
  name : String
  number : Nat
deriving Repr, DecidableEq

/-- The subset of `Book` state that sheet access touches (`book.py`). -/
structure Book where
  mem : List Nat
  _position : Nat
  _sheet_list : List (Option Sheet)
  _sheet_names : List String
  _sh_abs_posn : List Nat
  nsheets : Nat
  _resources_released : Bool
deriving Repr, DecidableEq

/-- `Book.release_resources` (`book.py` lines 505-526): sets
`_resources_released`, closes and drops the backing memory (`self.mem =
None`, modelled as `[]`); the dropped caches (`filestr`, `_sharedstrings`,
`_rich_text_runlist_map`) are not fields of the model. -/
def release_resources (bk : Book) : Book :=
  { bk with _resources_released := true, mem := [] }

/-- `Book.get_sheet` (`book.py` lines 678-692), with the default
`update_pos=True` used by every claim-relevant caller: refuses after
`release_resources`, otherwise seeks to the sheet's recorded absolute
position, re-confirms the worksheet BOF, builds the `Sheet` and caches it.
`sh.read(self)` (the external sheet decoder) is not modelled. -/
def get_sheet (bk : Book) (sh_number : Nat) : Except String (Sheet × Book) :=
  if bk._resources_released then
    .error "Can't load sheets after releasing resources."
  else
    match bk._sh_abs_posn.get? sh_number with
    | none => .error "IndexError: _sh_abs_posn"
    | some posn =>
        match getbof bk.mem posn XL_WORKSHEET with
        | .error e => .error e
        | .ok (_, pos') =>
            match bk._sheet_names.get? sh_number with
            | none => .error "IndexError: _sheet_names"
            | some nm =>
                let sh : Sheet := ⟨pos', nm, sh_number⟩
                .ok (sh, { bk with _position := pos',
                                   _sheet_list := bk._sheet_list.set sh_number (some sh) })

/-- `Book.sheet_by_index` (`book.py` lines 428-433):
`self._sheet_list[sheetx] or self.get_sheet(sheetx)` — a cached `Sheet`
object is truthy and returned as is; `None` is falsy and triggers
`get_sheet`. -/
def sheet_by_index (bk : Book) (sheetx : Nat) : Except String (Sheet × Book) :=
  match bk._sheet_list.get? sheetx with
  | none => .error "IndexError: _sheet_list"
  | some (some sh) => .ok (sh, bk)
  | some none => get_sheet bk sheetx

/-- `Book.sheet_by_name` (`book.py` lines 443-452):
`self._sheet_names.index(sheet_name)` (ValueError when absent becomes the
XLRDError) then `sheet_by_index`. -/
def sheet_by_name (bk : Book) (sheet_name : String) : Except String (Sheet × Book) :=
  match bk._sheet_names.findIdx? (· = sheet_name) with
  | none => .error "No sheet named"
  | some sheetx => sheet_by_index bk sheetx

/-- The loop body of `Book.sheets` (`book.py` lines 417-426) over a list of
sheet indices: load every sheet whose cache slot is `None`. -/
def sheets_go (bk : Book) : List Nat → Except String Book
  | [] => .ok bk
  | sheetx :: rest =>
      match bk._sheet_list.get? sheetx with
      | none => .error "IndexError: _sheet_list"
      | some (some _) => sheets_go bk rest
      | some none =>
          match get_sheet bk sheetx with
          | .error e => .error e
          | .ok (_, bk') => sheets_go bk' rest

/-- `Book.sheets` (`book.py` lines 417-426): load all unloaded sheets, then
return `self._sheet_list[:]`. -/
def sheets (bk : Book) : Except String (List (Option Sheet) × Book) :=
  match sheets_go bk (List.range bk.nsheets) with
  | .error e => .error e
  | .ok bk' => .ok (bk'._sheet_list, bk')

/-! ## Encrypted-workbook detection (`Book.handle_filepass`, `parse_globals`) -/

/-- `Book.handle_filepass` (`book.py` lines 861-878).  Always raises: either
`XLRDError("Workbook is encrypted")`, or — when `verbosity >= 2` and
`biff_version >= 80` put it on the diagnostic-dump path with a `data` too
short/long for the dump's `unpack` calls — a `struct.error` from the dump
itself.  (`hex_char_dump` and the `logger.debug` calls only log.) -/
def handle_filepass (verbosity biff_version : Nat) (data : List Nat) :
    Except String Unit :=
  if 2 ≤ verbosity ∧ 80 ≤ biff_version then
    if data.length < 2 then
      .error "struct.error: unpack requires a buffer of 2 bytes"
    else
      -- `kind1, = unpack('<H', data[:2])`
      if unpack2LE data 0 = 0 then
        -- `key, hash_value = unpack('<HH', data[2:])` needs exactly 4 bytes
        if data.length ≠ 6 then
          .error "struct.error: unpack requires a buffer of 4 bytes"
        else .error "Workbook is encrypted"
      else if unpack2LE data 0 = 1 then
        -- `kind2, = unpack('<H', data[4:6])` needs `data[4:6]` of 2 bytes
        if data.length < 6 then
          .error "struct.error: unpack requires a buffer of 2 bytes"
        else .error "Workbook is encrypted"
      else .error "Workbook is encrypted"
  else .error "Workbook is encrypted"

/-- The dispatch loop of `Book.parse_globals` (`book.py` lines 1120-1180)
over the record sequence `(code, data)` that `get_record_parts` yields.
The per-code handlers other than `handle_filepass` (`handle_sst`,
`handle_font`, ..., and the no-op default branch) are abstracted into the
state transformer `handle`; record codes are pairwise-distinct numerals, so
testing `XL_FILEPASS` and `XL_EOF` first is equivalent to the source's
`elif` chain.  On `XL_EOF` the source runs state-only epilogues and
returns; running out of records models `get_record_parts` hitting the end
of the stream (`struct.error`). -/
def parse_globals {σ : Type} (handle : Nat → List Nat → σ → σ)
    (verbosity biff_version : Nat) :
    σ → List (Nat × List Nat) → Except String σ
  | _, [] => .error "struct.error: unpack requires a buffer of 4 bytes"
  | st, (rc, data) :: rest =>
      if rc = XL_FILEPASS then
        match handle_filepass verbosity biff_version data with
        | .error e => .error e
        | .ok _ => parse_globals handle verbosity biff_version st rest
      else if rc = XL_EOF then .ok st
      else parse_globals handle verbosity biff_version (handle rc data st) rest

/-! ## Encoding derivation (`Book.derive_encoding`) -/

/-- The `Book` state that `derive_encoding` reads and writes.  `codepage`
and `encoding` default to `None` (`book.py` lines 295, 298). -/
structure EncState where
  encoding_override : Option String
  codepage : Option Nat
  biff_version : Nat
  encoding : Option String
deriving Repr, DecidableEq

/-- The trial decode at the end of `Book.derive_encoding` (`book.py` lines
779-787): whenever the (possibly updated) codepage is not 1200, `b'trial'`
must decode under the resolved encoding, else the exception is logged and
re-raised.  `pyCanDecodeTrial e` abstracts "Python's codec registry has a
codec named `e` and it decodes `b'trial'`" — decoding with encoding `None`
(only reachable when `self.encoding` was never assigned) is a `TypeError`. -/
def trial_decode_check (pyCanDecodeTrial : String → Bool) (st : EncState) :
    Except String EncState :=
  if st.codepage ≠ some 1200 then
    match st.encoding with
    | none => .error "TypeError: decode with encoding None"
    | some e =>
        if pyCanDecodeTrial e then .ok st
        else .error ("cannot decode trial bytes with " ++ e)
  else .ok st

/-- `Book.derive_encoding` (`book.py` lines 756-795).
`encoding_from_codepage` lives in the `biffh` module, which is not among
the sources; it is abstracted as the lookup `table`.  The final
`raw_user_name` block (lines 788-794) only re-decodes `user_name` with the
already-resolved encoding and does not affect encoding resolution; it is
not modelled. -/
def derive_encoding (table : Nat → Option String)
    (pyCanDecodeTrial : String → Bool) (st : EncState) : Except String EncState :=
  let st1 :=
    if st.encoding_override.isSome then { st with encoding := st.encoding_override }
    else
      match st.codepage with
      | none =>
          if st.biff_version < 80 then { st with encoding := some "iso-8859-1" }
          else { st with codepage := some 1200 }
      | some codepage =>
          match table codepage with
          | some encoding => { st with encoding := some encoding }
          | none =>
              if 300 ≤ codepage ∧ codepage ≤ 1999 then
                { st with encoding := some ("cp" ++ toString codepage) }
              else if 80 ≤ st.biff_version then
                { st with codepage := some 1200, encoding := some "utf_16_le" }
              else
                { st with encoding := some ("unknown_codepage_" ++ toString codepage) }
  trial_decode_check pyCanDecodeTrial st1

/-! ## Compound document (`compdoc.py`) -/

/-- `compdoc.py` lines 24-28: sector-id sentinels. -/
def EOCSID : Int := -2

/-- `compdoc.py` line 25. -/
def FREESID : Int := -1

/-- `compdoc.py` line 26. -/
def SATSID : Int := -3

/-- `compdoc.py` line 27. -/
def MSATSID : Int := -4

/-- `compdoc.py` line 28. -/
def EVILSID : Int := -5

/-- Python's `str.lower()` on the (ASCII) stream names the code compares:
per-character lowercasing, as a character list (this is `String.toLower`
unbundled so that concrete instances evaluate). -/
def pyLower (s : String) : List Char := s.data.map Char.toLower

/-- The fields of a `DirNode` (`compdoc.py` lines 35-50) that directory
lookup uses: `name` (UTF-16 decoded), `etype` (1 = storage, 2 = stream,
5 = root), the resolved `children` list, plus `first_SID` / `tot_size`
consumed by the stream locator. -/
structure DirNode where
  DID : Nat
  name : String
  etype : Nat
  children : List Nat
  first_SID : Int
  tot_size : Nat
deriving Repr, DecidableEq

/-- `CompDoc._dir_search` (`compdoc.py` lines 350-366), fused with its
child-scan loop: `_dir_search_scan dirlist path children` scans `children`
for the head path segment, comparing names case-insensitively
(`.lower()`, modelled by `pyLower`).  A match of entry type 2
(stream) is returned immediately — even when further path segments remain;
a match of type 1 (storage) with no remaining segments raises
"Requested component is a 'storage'", otherwise recurses; a match of any
other type raises "Requested stream is not a 'user stream'"; no match
yields `none`. -/
def _dir_search_scan (dirlist : List DirNode) :
    List String → List Nat → Except String (Option DirNode)
  | [], _ => .error "IndexError: empty path"
  | _ :: _, [] => .ok none
  | head :: tail, child :: rest =>
      match dirlist.get? child with
      | none => .error "IndexError: dirlist"
      | some node =>
          if pyLower node.name = pyLower head then
            if node.etype = 2 then .ok (some node)
            else if node.etype = 1 then
              if tail = [] then .error "Requested component is a 'storage'"
              else
                match dirlist.get? child with
                | none => .error "IndexError: dirlist"
                | some storage => _dir_search_scan dirlist tail storage.children
            else .error "Requested stream is not a 'user stream'"
          else _dir_search_scan dirlist (head :: tail) rest
termination_by path children => (path.length, children.length)

/-- `CompDoc._dir_search(path, storage_DID)`: scan the children of the
given storage (default DID 0, the root). -/
def _dir_search (dirlist : List DirNode) (path : List String)
    (storage_DID : Nat := 0) : Except String (Option DirNode) :=
  match dirlist.get? storage_DID with
  | none => .error "IndexError: dirlist"
  | some node => _dir_search_scan dirlist path node.children

/-! ### Master / sector allocation table construction (`CompDoc.__init__`) -/

/-- The MSAT-extension chain walk of `CompDoc.__init__` (`compdoc.py` lines
185-207).  State: the `seen` array, the MSAT accumulated so far, the
current extension sector id `sid`, and the count `k` of extension sectors
processed (`actual_MSATX_sectors`).  Each iteration checks the sentinel
stop set, bounds, and the `seen` array (revisit ⇒ `CompDocError`), marks
the sector, then `MSAT.extend(unpack(fmt, sector)); sid = MSAT.pop()` —
i.e. appends the sector's `nent` entries minus the popped last one, which
becomes the next link (`nent = sec_size // 4 ≥ 1` at every call site).
Terminates because each iteration clears a `seen` slot that was 0. -/
def build_MSAT_ext (mem : List Nat) (sec_size nent mem_data_secs : Nat)
    (seen : List Nat) (MSAT : List Int) (sid : Int) (k : Nat) :
    Except String (List Int × List Nat × Nat) :=
  if sid = EOCSID ∨ sid = FREESID ∨ sid = MSATSID then .ok (MSAT, seen, k)
  else if (mem_data_secs : Int) ≤ sid then
    .error "MSAT extension: accessing sector beyond those in file"
  else if sid < 0 then .error "MSAT extension: invalid sector id"
  else if hidx : seen.length ≤ sid.toNat then .error "IndexError: seen"
  else if hv : seen.getD sid.toNat 0 ≠ 0 then .error "MSAT corruption: seen"
  else
    let seen' := seen.set sid.toNat 1
    let offset := 512 + sec_size * sid.toNat
    if mem.length < offset + sec_size then
      .error "struct.error: short sector read"
    else
      let entries := readSectorInts mem offset nent
      match entries.getLast? with
      | none => .error "IndexError: pop from empty list"
      | some nxt =>
          build_MSAT_ext mem sec_size nent mem_data_secs seen'
            (MSAT ++ entries.dropLast) nxt (k + 1)
termination_by seen.count 0
decreasing_by
  have key : ∀ (l : List Nat) (i : Nat), i < l.length → l.getD i 0 = 0 →
      (l.set i 1).count 0 < l.count 0 := by
    intro l
    induction l with
    | nil => intro i h; simp at h
    | cons a t ih =>
        intro i h hz
        cases i with
        | zero =>
            simp only [List.getD_cons_zero] at hz
            subst hz
            simp [List.count_cons]
        | succ j =>
            simp only [List.length_cons] at h
            simp only [List.getD_cons_succ] at hz
            have := ih j (by omega) hz
            simp only [List.set, List.count_cons]
            cases hc : (0 == a) <;> simp [List.count_cons, hc] at * <;> omega
  simp only [not_not] at hv
  exact key seen sid.toNat (by omega) hv

/-- The MSAT construction of `CompDoc.__init__` (`compdoc.py` lines
176-207): the 109 fixed in-header entries `unpack('<109i', mem[76:512])`,
then — unless `MSATX_tot_secs == 0` with a first-sid of EOCSID, FREESID or
0 — the extension-sector chain walk.  Returns the MSAT, the updated `seen`
array, and the number of extension sectors processed. -/
def compdoc_build_MSAT (mem : List Nat) (sec_size nent mem_data_secs : Nat)
    (seen : List Nat) (MSATX_first_sec_sid : Int) (MSATX_tot_secs : Int) :
    Except String (List Int × List Nat × Nat) :=
  if mem.length < 512 then .error "struct.error: short header"
  else
    let MSAT := readSectorInts mem 76 109
    if MSATX_tot_secs = 0 ∧
        (MSATX_first_sec_sid = EOCSID ∨ MSATX_first_sec_sid = FREESID ∨
          MSATX_first_sec_sid = 0) then
      .ok (MSAT, seen, 0)
    else build_MSAT_ext mem sec_size nent mem_data_secs seen MSAT MSATX_first_sec_sid 0

/-- The SAT-building loop of `CompDoc.__init__` (`compdoc.py` lines
217-243): for each MSAT entry in order — FREESID/EOCSID entries are
skipped; an out-of-range entry is replaced by EVILSID with a one-time
truncation warning and sets `dump_again` (skipped here too); `msid < -2`
raises; a `seen` hit raises; otherwise the sector is marked and its
`nent` 32-bit entries are appended to the SAT. -/
def build_SAT_loop (mem : List Nat) (sec_size nent mem_data_secs : Nat) :
    List Int → List Nat → List Int → Bool →
    Except String (List Int × List Nat × Bool)
  | [], seen, SAT, dump_again => .ok (SAT, seen, dump_again)
  | msid :: restM, seen, SAT, dump_again =>
      if msid = FREESID ∨ msid = EOCSID then
        build_SAT_loop mem sec_size nent mem_data_secs restM seen SAT dump_again
      else if (mem_data_secs : Int) ≤ msid then
        build_SAT_loop mem sec_size nent mem_data_secs restM seen SAT true
      else if msid < -2 then .error "MSAT: invalid sector id"
      else if seen.length ≤ msid.toNat then .error "IndexError: seen"
      else if seen.getD msid.toNat 0 ≠ 0 then
        .error "MSAT extension corruption: seen"
      else
        let seen' := seen.set msid.toNat 2
        let offset := 512 + sec_size * msid.toNat
        if mem.length < offset + sec_size then
          .error "struct.error: short sector read"
        else
          build_SAT_loop mem sec_size nent mem_data_secs restM seen'
            (SAT ++ readSectorInts mem offset nent) dump_again

/-- The SAT construction (`compdoc.py` lines 217-251) including the
`dump_again` post-pass that overwrites `SAT[mem_data_secs:]` with EVILSID
after a truncation was detected. -/
def compdoc_build_SAT (mem : List Nat) (sec_size nent mem_data_secs : Nat)
    (MSAT : List Int) (seen : List Nat) : Except String (List Int × List Nat) :=
  match build_SAT_loop mem sec_size nent mem_data_secs MSAT seen [] false with
  | .error e => .error e
  | .ok (SAT, seen', dump_again) =>
      if dump_again then
        .ok (SAT.take mem_data_secs ++
          List.replicate (SAT.length - mem_data_secs) EVILSID, seen')
      else .ok (SAT, seen')

/-! ### Stream location (`CompDoc._locate_stream`, `ScatteredMemory`) -/

/-- The three shapes a located stream's buffer can take (`compdoc.py`
lines 458-469): the original backing byte sequence (`mem` itself,
zero-copy), an owned concatenation of the fragments, or a lazy
`ScatteredMemory` view holding the fragment ranges. -/
inductive LocatedBuffer where
  | whole
  | owned (bytes : List Nat)
  | scattered (slices : List (Int × Int))
deriving Repr, DecidableEq

/-- The chain walk of `CompDoc._locate_stream` (`compdoc.py` lines
427-456).  State mirrors the source's locals: the `seen` array, the
accumulated `slices`, the current and previous sector ids `s`, `p`
(initially `-99`), the current contiguous run `[start_pos, end_pos)`
(initially the `-9999`/`-8888` dummies, never used while `p < 0`), and
`tot_found`.  A `seen` hit raises unless `ignore_workbook_corruption`;
the sector is then marked regardless; exceeding
`found_limit = ceil(expected_size / sec_size)` raises; a contiguous sector
extends the run, otherwise the run is flushed to `slices` and a new run
starts; the next sector id is `sat[s]` (an out-of-range `s` is an
uncaught `IndexError` here).  The loop ends when `s` goes negative, which
must be `EOCSID` (assertion). -/
def locate_stream_loop (mem : List Nat) (base : Nat) (sat : List Int)
    (sec_size : Nat) (ignore_workbook_corruption : Bool) (seen_id : Nat)
    (found_limit : Nat) (seen : List Nat) (slices : List (Int × Int))
    (s p start_pos end_pos : Int) (tot_found : Nat) :
    Except String (List Nat × List (Int × Int) × Int × Int × Nat) :=
  if s < 0 then
    if s ≠ EOCSID then .error "AssertionError: s == EOCSID"
    else .ok (seen, slices, start_pos, end_pos, tot_found)
  else if seen.length ≤ s.toNat then .error "IndexError: seen"
  else if seen.getD s.toNat 0 ≠ 0 ∧ ¬ignore_workbook_corruption then
    .error "corruption: seen"
  else
    let seen' := seen.set s.toNat seen_id
    if h : found_limit < tot_found + 1 then
      .error "size exceeds expected bytes; corrupt?"
    else
      let run :=
        if s = p + 1 then (slices, start_pos, end_pos + sec_size)
        else
          ((if 0 ≤ p then slices ++ [(start_pos, end_pos)] else slices),
            (base : Int) + s * sec_size,
            (base : Int) + s * sec_size + sec_size)
      if sat.length ≤ s.toNat then .error "IndexError: sat"
      else
        locate_stream_loop mem base sat sec_size
          ignore_workbook_corruption seen_id found_limit seen'
          run.1 (sat.getD s.toNat 0) s run.2.1 run.2.2 (tot_found + 1)
termination_by found_limit + 1 - tot_found
decreasing_by omega

/-- `CompDoc._locate_stream` (`compdoc.py` lines 422-469): run the chain
walk from `start_sid`; on completion assert the sector count matches
`found_limit`; a fully contiguous chain (no flushed slices) returns the
backing bytes themselves with the run's start offset (zero copy); a
fragmented chain below 90 MB returns an owned concatenation at offset 0;
a fragmented chain of 90 MB or more returns a lazy `ScatteredMemory` view
at offset 0.  Also returns the updated `seen` array. -/
def locate_stream (mem : List Nat) (base : Nat) (sat : List Int)
    (sec_size : Nat) (start_sid : Int) (expected_stream_size : Nat)
    (ignore_workbook_corruption : Bool) (seen_id : Nat) (seen : List Nat) :
    Except String (LocatedBuffer × Int × Nat × List Nat) :=
  if start_sid < 0 then .error "_locate_stream: start_sid is -ve"
  else
    let found_limit := (expected_stream_size + sec_size - 1) / sec_size
    match locate_stream_loop mem base sat sec_size ignore_workbook_corruption
        seen_id found_limit seen [] start_sid (-99) (-9999) (-8888) 0 with
    | .error e => .error e
    | .ok (seen', slices, start_pos, end_pos, tot_found) =>
        if tot_found ≠ found_limit then
          .error "AssertionError: tot_found == found_limit"
        else if slices = [] then
          .ok (.whole, start_pos, expected_stream_size, seen')
        else
          let slicesF := slices ++ [(start_pos, end_pos)]
          if expected_stream_size < 1024 * 1024 * 90 then
            .ok (.owned ((slicesF.map
                  (fun q => pySlice mem q.1.toNat q.2.toNat)).flatten),
              0, expected_stream_size, seen')
          else .ok (.scattered slicesF, 0, expected_stream_size, seen')

/-- `bisect.bisect_left` on a sorted list: the first index whose element is
`≥ x`, or the length when none is. -/
def bisect_left (l : List Int) (x : Int) : Nat :=
  match l with
  | [] => 0
  | a :: rest => if x ≤ a then 0 else bisect_left rest x + 1

/-- `ScatteredMemory.__init__` (`compdoc.py` lines 74-80): the cumulative
sums `cum_sum` of the slice sizes. -/
def scat_cum_sum (slices : List (Int × Int)) : List Int :=
  (List.range slices.length).map
    (fun i => ((slices.take (i + 1)).map (fun q => q.2 - q.1)).sum)

/-- The bytes a `ScatteredMemory` stands for: the eager concatenation of
its fragments read from the backing file (`filemem`, the same bytes that
`CompDoc` was opened on). -/
def scattered_eager (filemem : List Nat) (slices : List (Int × Int)) : List Nat :=
  (slices.map (fun q => pySlice filemem q.1.toNat q.2.toNat)).flatten

/-- `ScatteredMemory.__getitem__` with an `int` index (`compdoc.py` lines
91-95): locate the fragment by `bisect_left` over `cum_sum`, rebase the
index into it, and read one byte of the backing file.  All claim-relevant
indices are non-negative (Python's negative-index wrap-around is not
exercised). -/
def scattered_getitem (filemem : List Nat) (slices : List (Int × Int))
    (item : Int) : Except String Nat :=
  let cum := scat_cum_sum slices
  let idx := bisect_left cum item
  let d := if 0 < idx then cum.getD (idx - 1) 0 else 0
  let _item := item - d
  match slices.get? idx with
  | none => .error "IndexError: slices"
  | some q =>
      match filemem.get? (q.1 + _item).toNat with
      | none => .error "IndexError: mem"
      | some b => .ok b

/-- `ScatteredMemory.__getitem__` with a slice `[start:stop]` (`compdoc.py`
lines 97-110): join the fragments from `bisect_left(cum, start)` through
`bisect_left(cum, stop)` inclusive and re-slice the result.  All
claim-relevant bounds are non-negative with `start ≤ stop`. -/
def scattered_getslice (filemem : List Nat) (slices : List (Int × Int))
    (start stop : Int) : List Nat :=
  let cum := scat_cum_sum slices
  let length := stop - start
  let idx0 := bisect_left cum start
  let idx1 := bisect_left cum stop
  let d_start := if idx0 = 0 then 0 else cum.getD (idx0 - 1) 0
  let data := (((slices.drop idx0).take (idx1 + 1 - idx0)).map
    (fun q => pySlice filemem q.1.toNat q.2.toNat)).flatten
  pySlice data (start - d_start).toNat ((start - d_start).toNat + length.toNat)

/-! ## Shared string table (`unpack_SST_table`, `book.py` lines 1303-1386)

Decoded text is modelled as a list of Unicode code points. -/

/-- Python's `bytes.decode('utf_16_le')`: pair the bytes little-endian into
16-bit code units, combine surrogate pairs into single code points, and
fail (`UnicodeDecodeError`) on an odd byte count, a lone high surrogate, or
an unpaired low surrogate — exactly the failures the source's
`except: raise` around `unicode(raw_str, "utf_16_le")` re-raises. -/
def utf16leDecode : List Nat → Option (List Nat)
  | [] => some []
  | [_] => none
  | b0 :: b1 :: rest =>
      let u := b0 + 256 * b1
      if u < 0xD800 ∨ 0xE000 ≤ u then (utf16leDecode rest).map (u :: ·)
      else if u < 0xDC00 then
        match rest with
        | b2 :: b3 :: rest2 =>
            let v := b2 + 256 * b3
            if 0xDC00 ≤ v ∧ v < 0xE000 then
              (utf16leDecode rest2).map
                (fun t => (0x10000 + (u - 0xD800) * 0x400 + (v - 0xDC00)) :: t)
            else none
        | _ => none
      else none

/-- Python's `bytes.decode('latin_1')`: every byte value is its own code
point (total on byte sequences). -/
def latin1Decode (raw : List Nat) : List Nat := raw

/-- The `while True` character-accumulation loop of `unpack_SST_table`
(`book.py` lines 1330-1361).  `chars_need` is `nchars - chars_got`;
`rest` holds the fragments after the current `data`.  In UTF-16 mode
(`options & 1`) it consumes `min((datalen - pos) >> 1, chars_need)` code
units and decodes them (a decode failure is re-raised); in compressed mode
it consumes `min(datalen - pos, chars_need)` bytes as latin-1.  If more
characters are needed it moves to the next fragment, re-reading that
fragment's leading option byte (`BYTES_ORD(data[0])`) and resuming at
position 1.  (When corrupt headers put `pos` beyond the fragment end,
Nat subtraction clamps `datalen - pos` at 0 where CPython would compute a
negative count; no theorem below exercises that corner.)
Returns `(accumulated code points, pos, data, rest)`. -/
def sst_char_loop (acc : List Nat) (options : Nat) (data : List Nat)
    (pos : Nat) (rest : List (List Nat)) (chars_need : Nat) :
    Except String (List Nat × Nat × List Nat × List (List Nat)) :=
  if options &&& 1 ≠ 0 then
    -- Uncompressed UTF-16
    let chars_avail := min ((data.length - pos) / 2) chars_need
    let raw := pySlice data pos (pos + 2 * chars_avail)
    match utf16leDecode raw with
    | none => .error "UnicodeDecodeError: utf_16_le"
    | some cps =>
        if chars_avail = chars_need then
          .ok (acc ++ cps, pos + 2 * chars_avail, data, rest)
        else if rest.length = 0 then .error "IndexError: data_tab"
        else if (rest.headD []).length = 0 then
          .error "IndexError: option byte of empty fragment"
        else
          sst_char_loop (acc ++ cps) ((rest.headD []).headD 0) (rest.headD [])
            1 (rest.drop 1) (chars_need - chars_avail)
  else
    -- COMPRESSED (latin-1) encoding
    let chars_avail := min (data.length - pos) chars_need
    let raw := pySlice data pos (pos + chars_avail)
    if chars_avail = chars_need then
      .ok (acc ++ latin1Decode raw, pos + chars_avail, data, rest)
    else if rest.length = 0 then .error "IndexError: data_tab"
    else if (rest.headD []).length = 0 then
      .error "IndexError: option byte of empty fragment"
    else
      sst_char_loop (acc ++ latin1Decode raw) ((rest.headD []).headD 0)
        (rest.headD []) 1 (rest.drop 1) (chars_need - chars_avail)
termination_by rest.length
decreasing_by
  all_goals simp only [List.length_drop]; omega

/-- The rich-text run loop of `unpack_SST_table` (`book.py` lines
1363-1373): read `count` little-endian `(H, H)` pairs, hopping to the next
fragment whenever `pos` sits exactly at the fragment end. -/
def sst_rt_loop (runs : List (Nat × Nat)) (count : Nat) (data : List Nat)
    (pos : Nat) (rest : List (List Nat)) :
    Except String (List (Nat × Nat) × List Nat × Nat × List (List Nat)) :=
  match count with
  | 0 => .ok (runs, data, pos, rest)
  | c + 1 =>
      let step : Except String (List Nat × Nat × List (List Nat)) :=
        if pos = data.length then
          match rest with
          | [] => .error "IndexError: data_tab"
          | d :: rest' => .ok (d, 0, rest')
        else .ok (data, pos, rest)
      match step with
      | .error e => .error e
      | .ok (data', pos', rest') =>
          if data'.length < pos' + 4 then
            .error "struct.error: unpack requires a buffer of 4 bytes"
          else
            sst_rt_loop (runs ++ [(unpack2LE data' pos', unpack2LE data' (pos' + 2))])
              c data' (pos' + 4) rest'

/-- The per-string loop of `unpack_SST_table` (`book.py` lines 1313-1385).
For each of `n` strings: read the 16-bit character count, the option byte
(bit 0 wide/compressed, bit 2 phonetic, bit 3 rich-text), the optional
rich-text run count and phonetic size, then the character payload via
`sst_char_loop`; read the rich-text runs; skip the phonetic bytes; when
`pos` has reached or passed the fragment end, rebase into the next
fragment (keeping the stale fragment, as the source does, when none is
left — legal only for the last string, else the source's `assert` fires).
The phonetic size is declared `'<i'` (signed); a negative size would make
CPython slice from a negative position — clamped here by `Int.toNat`, a
corner no theorem exercises. -/
def sst_strings_loop (strings : List (List Nat))
    (richtext_runs : List (Nat × List (Nat × Nat))) (data : List Nat)
    (pos : Nat) (rest : List (List Nat)) :
    Nat → Except String (List (List Nat) × List (Nat × List (Nat × Nat)))
  | 0 => .ok (strings, richtext_runs)
  | n + 1 =>
      if data.length < pos + 2 then
        .error "struct.error: unpack requires a buffer of 2 bytes"
      else
        let nchars := unpack2LE data pos
        let pos := pos + 2
        match data.get? pos with
        | none => .error "IndexError: options byte"
        | some options =>
            let pos := pos + 1
            let rtR : Except String (Nat × Nat) :=
              if options &&& 0x08 ≠ 0 then
                if data.length < pos + 2 then
                  .error "struct.error: unpack requires a buffer of 2 bytes"
                else .ok (unpack2LE data pos, pos + 2)
              else .ok (0, pos)
            match rtR with
            | .error e => .error e
            | .ok (rtcount, pos) =>
                let phoR : Except String (Int × Nat) :=
                  if options &&& 0x04 ≠ 0 then
                    if data.length < pos + 4 then
                      .error "struct.error: unpack requires a buffer of 4 bytes"
                    else .ok (le32ToInt (data.getD pos 0) (data.getD (pos + 1) 0)
                      (data.getD (pos + 2) 0) (data.getD (pos + 3) 0), pos + 4)
                  else .ok (0, pos)
                match phoR with
                | .error e => .error e
                | .ok (phosz, pos) =>
                    match sst_char_loop [] options data pos rest nchars with
                    | .error e => .error e
                    | .ok (accstrg, pos, data, rest) =>
                        let rtRes : Except String
                            (List (Nat × List (Nat × Nat)) × List Nat × Nat ×
                              List (List Nat)) :=
                          if rtcount ≠ 0 then
                            match sst_rt_loop [] rtcount data pos rest with
                            | .error e => .error e
                            | .ok (runs, data, pos, rest) =>
                                .ok (richtext_runs ++ [(strings.length, runs)],
                                  data, pos, rest)
                          else .ok (richtext_runs, data, pos, rest)
                        match rtRes with
                        | .error e => .error e
                        | .ok (richtext_runs, data, pos, rest) =>
                            let pos := ((pos : Int) + phosz).toNat
                            if data.length ≤ pos then
                              let pos := pos - data.length
                              match rest with
                              | d :: rest' =>
                                  sst_strings_loop (strings ++ [accstrg])
                                    richtext_runs d pos rest' n
                              | [] =>
                                  if n ≠ 0 then
                                    .error "AssertionError: last string expected"
                                  else
                                    sst_strings_loop (strings ++ [accstrg])
                                      richtext_runs data pos [] n
                            else
                              sst_strings_loop (strings ++ [accstrg])
                                richtext_runs data pos rest n

/-- `unpack_SST_table(datatab, nstrings)` (`book.py` lines 1303-1386):
start at `data = datatab[0]`, `pos = 8` (past the SST header counts), and
decode `nstrings` strings.  Returns the ordered string table (lists of
code points) and the sparse rich-text run map (as an association list). -/
def unpack_SST_table (datatab : List (List Nat)) (nstrings : Nat) :
    Except String (List (List Nat) × List (Nat × List (Nat × Nat))) :=
  match datatab with
  | [] => .error "IndexError: datatab"
  | data :: rest => sst_strings_loop [] [] data 8 rest nstrings

/-! ## Specification-side notions used to state the theorems -/

/-- A walk through a sector allocation table: `SatPath sat s sids e` says
that starting at sector id `s` and repeatedly following `sat`, the walk
visits exactly the (non-negative) sector ids `sids` and then stands at
`e`. -/
inductive SatPath (sat : List Int) : Int → List Nat → Int → Prop where
  | nil (s : Int) : SatPath sat s [] s
  | cons {s : Int} {id : Nat} {rest : List Nat} {e : Int} :
      s = (id : Int) → id < sat.length →
      SatPath sat (sat.getD id 0) rest e → SatPath sat s (id :: rest) e

/-- The bytes of one sector: `mem[base + id*sec_size : base + (id+1)*sec_size]`. -/
def sector_bytes (mem : List Nat) (base sec_size id : Nat) : List Nat :=
  pySlice mem (base + id * sec_size) (base + id * sec_size + sec_size)

/-- The bytes of a sector chain, in walk order. -/
def chain_bytes (mem : List Nat) (base sec_size : Nat) (sids : List Nat) : List Nat :=
  (sids.map (sector_bytes mem base sec_size)).flatten

/-- The byte content a located stream result denotes: `length` bytes of the
returned buffer starting at `offset`.  For a `ScatteredMemory` result the
denotation is the eager concatenation of its fragment ranges (the bytes the
lazy view stands for). -/
def located_bytes (mem : List Nat) : LocatedBuffer → Int → Nat → List Nat
  | .whole, off, len => pySlice mem off.toNat (off.toNat + len)
  | .owned b, off, len => pySlice b off.toNat (off.toNat + len)
  | .scattered sl, off, len =>
      pySlice (scattered_eager mem sl) off.toNat (off.toNat + len)

/-- A walk through the MSAT extension chain: `MSATXPath mem sec_size nent s
ids e` says that starting at sector id `s`, reading each visited extension
sector's entries and following the popped last entry, the walk visits
exactly the sectors `ids` and then stands at `e`. -/
inductive MSATXPath (mem : List Nat) (sec_size nent : Nat) :
    Int → List Nat → Int → Prop where
  | nil (s : Int) : MSATXPath mem sec_size nent s [] s
  | cons {s : Int} {id : Nat} {nxt : Int} {rest : List Nat} {e : Int} :
      s = (id : Int) →
      (readSectorInts mem (512 + sec_size * id) nent).getLast? = some nxt →
      MSATXPath mem sec_size nent nxt rest e →
      MSATXPath mem sec_size nent s (id :: rest) e

/-- The in-range, non-sentinel entries of an MSAT, in order. -/
def msat_valid_entries (MSAT : List Int) (mem_data_secs : Nat) : List Nat :=
  MSAT.filterMap
    (fun e => if 0 ≤ e ∧ e < (mem_data_secs : Int) then some e.toNat else none)

/-- Number of characters (BIFF code units) a shared-string fragment
carries: UTF-16 payloads count 16-bit units, compressed payloads count
bytes. -/
def fragUnits (ob : Nat) (payload : List Nat) : Nat :=
  if ob &&& 1 ≠ 0 then payload.length / 2 else payload.length

/-- Decoded code points of a shared-string fragment payload under its
option byte's encoding mode. -/
def fragDecode (ob : Nat) (payload : List Nat) : Option (List Nat) :=
  if ob &&& 1 ≠ 0 then utf16leDecode payload else some (latin1Decode payload)

/-- A well-formed continuation fragment: a leading option byte followed by
a payload that is code-unit aligned and carries at least one character. -/
def contOk : List Nat → Prop
  | [] => False
  | ob :: pl => (ob &&& 1 ≠ 0 → 2 ∣ pl.length) ∧ 1 ≤ fragUnits ob pl

/-- Total character count carried by a list of continuation fragments. -/
def contsUnits : List (List Nat) → Nat
  | [] => 0
  | [] :: r => contsUnits r
  | (ob :: pl) :: r => fragUnits ob pl + contsUnits r

/-- Decoded code points carried by a list of continuation fragments, each
under its own leading option byte; `none` if any fragment fails to
decode. -/
def contsDecode : List (List Nat) → Option (List Nat)
  | [] => some []
  | [] :: _ => none
  | (ob :: pl) :: r =>
      match fragDecode ob pl, contsDecode r with
      | some x, some y => some (x ++ y)
      | _, _ => none

/-- A BIFF8 BOF record (opcode 0x809, declared length 16) with the given
sub-fields, as raw bytes. -/
def mkBOF8 (version2 streamtype build year : Nat) : List Nat :=
  [0x09, 0x08, 16, 0,
   version2 % 256, version2 / 256, streamtype % 256, streamtype / 256,
   build % 256, build / 256, year % 256, year / 256] ++ List.replicate 8 0

/-- A short BOF record (opcodes 0x409/0x209/0x009, declared length 8) with
version word 0 and the given stream type, as raw bytes. -/
def mkBOF4S (opcode streamtype : Nat) : List Nat :=
  [opcode % 256, opcode / 256, 8, 0,
   0, 0, streamtype % 256, streamtype / 256, 0, 0, 0, 0]

/-! # Theorems -/

/-! ## Generic byte-sequence lemmas -/

theorem pySlice_length (mem : List Nat) (a b : Nat) :
    (pySlice mem a b).length = min (b - a) (mem.length - a) := by
  simp [pySlice, List.length_take, List.length_drop]

theorem pySlice_split (l : List Nat) (a b c : Nat) (h1 : a ≤ b) (h2 : b ≤ c) :
    pySlice l a c = pySlice l a b ++ pySlice l b c := by
  unfold pySlice
  have hd : l.drop b = (l.drop a).drop (b - a) := by
    rw [List.drop_drop]; congr 1; omega
  rw [hd]
  have : c - a = (b - a) + (c - b) := by omega
  rw [this, List.take_add]

theorem readSectorInts_length (mem : List Nat) (offset n : Nat) :
    (readSectorInts mem offset n).length = n := by
  induction n generalizing offset with
  | zero => rfl
  | succ k ih => simp [readSectorInts, ih]

theorem getD_set_ne (l : List Nat) (i j v : Nat) (h : i ≠ j) :
    (l.set i v).getD j 0 = l.getD j 0 := by
  simp [List.getD, List.getElem?_set_ne h]

theorem getD_set_self (l : List Nat) (i v : Nat) (h : i < l.length) :
    (l.set i v).getD i 0 = v := by
  simp [List.getD, List.getElem?_set_eq_of_lt _ h]

/-! ## C2: end-of-stream behaviour of the record cursor -/

theorem get2bytes_eof (mem : List Nat) (pos : Nat) (h : mem.length < pos + 2) :
    (get2bytes mem pos).1 = MY_EOF := by
  unfold get2bytes
  have hlen : (pySlice mem pos (pos + 2)).length < 2 := by
    rw [pySlice_length]; omega
  match hs : pySlice mem pos (pos + 2) with
  | [] => simp [hs]
  | [a] => simp [hs]
  | a :: b :: rest => rw [hs] at hlen; simp at hlen; omega

theorem get_record_parts_short (mem : List Nat) (pos : Nat)
    (h : mem.length < pos + 4) :
    get_record_parts mem pos =
      .error "struct.error: unpack requires a buffer of 4 bytes" := by
  unfold get_record_parts
  have hlen : (pySlice mem pos (pos + 4)).length < 4 := by
    rw [pySlice_length]; omega
  match hs : pySlice mem pos (pos + 4) with
  | [] => simp [hs]
  | [a] => simp [hs]
  | [a, b] => simp [hs]
  | [a, b, c] => simp [hs]
  | a :: b :: c :: d :: rest => rw [hs] at hlen; simp at hlen; omega

/-- C2, counterexample.  The claim says `Book.get_record_parts` returns an
explicit end-of-stream marker and does not raise when fewer than 4 bytes
remain; on the concrete 3-byte stream it instead raises `struct.error`
from `unpack('<HH', ...)`. -/
theorem C2_counterexample :
    get_record_parts [9, 8, 16] 0 =
      .error "struct.error: unpack requires a buffer of 4 bytes" := by
  rfl

/-- C2, amended.  With fewer than 4 bytes before end of stream,
`Book.get_record_parts` raises `struct.error` rather than returning a
marker; the explicit end-of-stream marker (`MY_EOF`) is instead what
`Book.get2bytes` returns when fewer than 2 bytes remain (which is how
`getbof` detects end of stream for the variants with no trailing
terminator record). -/
theorem C2_record_cursor_end_of_stream (mem : List Nat) (pos : Nat) :
    (mem.length < pos + 4 →
      get_record_parts mem pos =
        .error "struct.error: unpack requires a buffer of 4 bytes") ∧
    (mem.length < pos + 2 → (get2bytes mem pos).1 = MY_EOF) :=
  ⟨get_record_parts_short mem pos, get2bytes_eof mem pos⟩

theorem C2_record_cursor_end_of_stream_witness :
    get_record_parts [] 0 =
      .error "struct.error: unpack requires a buffer of 4 bytes" ∧
    (get2bytes [] 0).1 = MY_EOF := by
  have h := C2_record_cursor_end_of_stream [] 0
  exact ⟨h.1 (by decide), h.2 (by decide)⟩

/-! ## C4: encrypted workbooks are rejected unconditionally -/

theorem handle_filepass_never_ok (verbosity biff_version : Nat)
    (data : List Nat) :
    (handle_filepass verbosity biff_version data).isOk = false := by
  unfold handle_filepass
  split_ifs <;> rfl

theorem handle_filepass_quiet (verbosity biff_version : Nat) (data : List Nat)
    (h : ¬(2 ≤ verbosity ∧ 80 ≤ biff_version)) :
    handle_filepass verbosity biff_version data =
      .error "Workbook is encrypted" := by
  unfold handle_filepass
  split
  · exact absurd (by assumption) h
  · rfl

/-- C4, counterexample.  The claim says a FILEPASS record makes
`parse_globals` fail with "Workbook is encrypted" regardless of any
configuration flags; with `verbosity = 2` and `biff_version = 80` the
diagnostic-dump path of `handle_filepass` unpacks the (empty) payload
first and the error raised is a `struct.error` with a different message. -/
theorem C4_counterexample :
    parse_globals (σ := Unit) (fun _ _ s => s) 2 80 () [(XL_FILEPASS, [])] =
      .error "struct.error: unpack requires a buffer of 2 bytes" ∧
    "struct.error: unpack requires a buffer of 2 bytes" ≠
      "Workbook is encrypted" := by
  exact ⟨rfl, by decide⟩

/-- C4, amended.  A FILEPASS record anywhere before the terminating EOF
record makes `parse_globals` fail — `handle_filepass` can never return
successfully, so decryption is never attempted — and the error is
`XLRDError("Workbook is encrypted")` except on the diagnostic-dump path
(`verbosity ≥ 2` and `biff_version ≥ 80`), where a malformed FILEPASS
payload can make the dump's own `unpack` raise `struct.error` first. -/
theorem C4_filepass_always_fails {σ : Type} (handle : Nat → List Nat → σ → σ)
    (verbosity biff_version : Nat) (st : σ) (pre post : List (Nat × List Nat))
    (data : List Nat) :
    ((∀ r ∈ pre, r.1 ≠ XL_EOF) →
      (parse_globals handle verbosity biff_version st
          (pre ++ (XL_FILEPASS, data) :: post)).isOk = false ∧
      (¬(2 ≤ verbosity ∧ 80 ≤ biff_version) →
        parse_globals handle verbosity biff_version st
            (pre ++ (XL_FILEPASS, data) :: post) =
          .error "Workbook is encrypted")) ∧
    (∀ d, (handle_filepass verbosity biff_version d).isOk = false) := by
  constructor
  · intro hpre
    induction pre generalizing st with
    | nil =>
        simp only [List.nil_append]
        have h := handle_filepass_never_ok verbosity biff_version data
        constructor
        · rw [parse_globals, if_pos rfl]
          match hv : handle_filepass verbosity biff_version data with
          | .error e => rfl
          | .ok u => rw [hv] at h; simp [Except.isOk, Except.toBool] at h
        · intro hq
          rw [parse_globals, if_pos rfl,
            handle_filepass_quiet verbosity biff_version data hq]
    | cons r pre' ih =>
        obtain ⟨rc, d⟩ := r
        have hne : rc ≠ XL_EOF := hpre (rc, d) (List.mem_cons_self _ _)
        have hpre' : ∀ x ∈ pre', x.1 ≠ XL_EOF := fun x hx =>
          hpre x (List.mem_cons_of_mem _ hx)
        simp only [List.cons_append]
        rw [parse_globals]
        by_cases hfp : rc = XL_FILEPASS
        · rw [if_pos hfp]
          have h := handle_filepass_never_ok verbosity biff_version d
          constructor
          · match hv : handle_filepass verbosity biff_version d with
            | .error e => rfl
            | .ok u => rw [hv] at h; simp [Except.isOk, Except.toBool] at h
          · intro hq
            rw [handle_filepass_quiet verbosity biff_version d hq]
        · rw [if_neg hfp, if_neg hne]
          exact ih (handle rc d st) hpre'
  · intro d
    exact handle_filepass_never_ok verbosity biff_version d

theorem sheets_go_hits_released (l : List Nat) (bk : Book)
    (hrel : bk._resources_released = true)
    (hbnd : ∀ j ∈ l, j < bk._sheet_list.length)
    (hun : ∃ j ∈ l, bk._sheet_list.get? j = some none) :
    sheets_go bk l = .error "Can't load sheets after releasing resources." := by
  induction l with
  | nil => obtain ⟨j, hj, _⟩ := hun; simp at hj
  | cons j l' ih =>
      rw [sheets_go]
      match hj : bk._sheet_list.get? j with
      | none =>
          have := hbnd j (List.mem_cons_self _ _)
          rw [List.get?_eq_none] at hj
          omega
      | some (some sh) =>
          obtain ⟨j', hj', hv⟩ := hun
          rcases List.mem_cons.mp hj' with h | h
          · subst h; rw [hj] at hv; simp at hv
          · exact ih (fun x hx => hbnd x (List.mem_cons_of_mem _ hx)) ⟨j', h, hv⟩
      | some none =>
          rw [get_sheet, if_pos hrel]

/-- C10.  After `release_resources`, `get_sheet` raises
"Can't load sheets after releasing resources." for every sheet number;
`sheet_by_index` still returns an already-cached sheet unchanged, but
raises for an uncached one; `sheet_by_name` raises for an uncached sheet
it resolves; and `sheets()` raises as soon as any sheet in range is not
yet decoded. -/
theorem C10_release_blocks_sheet_loading (bk : Book) (i : Nat) (sh : Sheet)
    (nm : String) (j : Nat) :
    (get_sheet (release_resources bk) i =
      .error "Can't load sheets after releasing resources.") ∧
    ((release_resources bk)._sheet_list.get? i = some (some sh) →
      sheet_by_index (release_resources bk) i = .ok (sh, release_resources bk)) ∧
    ((release_resources bk)._sheet_list.get? i = some none →
      sheet_by_index (release_resources bk) i =
        .error "Can't load sheets after releasing resources.") ∧
    ((release_resources bk)._sheet_names.findIdx? (· = nm) = some j →
      (release_resources bk)._sheet_list.get? j = some none →
      sheet_by_name (release_resources bk) nm =
        .error "Can't load sheets after releasing resources.") ∧
    (bk.nsheets ≤ (release_resources bk)._sheet_list.length →
      (∃ j' < bk.nsheets,
        (release_resources bk)._sheet_list.get? j' = some none) →
      sheets (release_resources bk) =
        .error "Can't load sheets after releasing resources.") := by
  have hrel : (release_resources bk)._resources_released = true := rfl
  have hgs : ∀ k, get_sheet (release_resources bk) k =
      .error "Can't load sheets after releasing resources." := by
    intro k; rw [get_sheet, if_pos hrel]
  refine ⟨hgs i, ?_, ?_, ?_, ?_⟩
  · intro hc; unfold sheet_by_index; rw [hc]
  · intro hc; unfold sheet_by_index; rw [hc]; exact hgs i
  · intro hf hc
    unfold sheet_by_name; rw [hf]
    dsimp only
    unfold sheet_by_index; rw [hc]
    exact hgs j
  · intro hbnd ⟨j', hj', hv⟩
    rw [sheets, sheets_go_hits_released]
    · exact hrel
    · intro x hx
      have : x < bk.nsheets := by
        have := List.mem_range.mp hx
        simpa using this
      omega
    · exact ⟨j', List.mem_range.mpr hj', hv⟩

theorem C10_release_blocks_sheet_loading_witness :
    get_sheet (release_resources ⟨[], 0, [some ⟨0, "a", 0⟩, none],
        ["a", "b"], [0, 0], 2, false⟩) 1 =
      .error "Can't load sheets after releasing resources." ∧
    sheet_by_index (release_resources ⟨[], 0, [some ⟨0, "a", 0⟩, none],
        ["a", "b"], [0, 0], 2, false⟩) 0 =
      .ok (⟨0, "a", 0⟩, release_resources ⟨[], 0, [some ⟨0, "a", 0⟩, none],
        ["a", "b"], [0, 0], 2, false⟩) ∧
    sheet_by_name (release_resources ⟨[], 0, [some ⟨0, "a", 0⟩, none],
        ["a", "b"], [0, 0], 2, false⟩) "b" =
      .error "Can't load sheets after releasing resources." ∧
    sheets (release_resources ⟨[], 0, [some ⟨0, "a", 0⟩, none],
        ["a", "b"], [0, 0], 2, false⟩) =
      .error "Can't load sheets after releasing resources." := by
  have h0 := C10_release_blocks_sheet_loading
    ⟨[], 0, [some ⟨0, "a", 0⟩, none], ["a", "b"], [0, 0], 2, false⟩ 1
    ⟨0, "a", 0⟩ "b" 1
  have h1 := C10_release_blocks_sheet_loading
    ⟨[], 0, [some ⟨0, "a", 0⟩, none], ["a", "b"], [0, 0], 2, false⟩ 0
    ⟨0, "a", 0⟩ "b" 1
  refine ⟨h0.1, h1.2.1 rfl, h0.2.2.2.1 (by rfl) (by rfl),
    h0.2.2.2.2 (by decide) ⟨1, by decide, by rfl⟩⟩

/-! ## C9: directory path lookup -/

theorem dir_search_scan_skip (dl : List DirNode) (head : String)
    (tail : List String) (pre rest : List Nat)
    (hpre : ∀ c ∈ pre, ∃ m, dl.get? c = some m ∧ pyLower m.name ≠ pyLower head) :
    _dir_search_scan dl (head :: tail) (pre ++ rest) =
      _dir_search_scan dl (head :: tail) rest := by
  induction pre with
  | nil => rfl
  | cons c pre' ih =>
      obtain ⟨m, hm, hne⟩ := hpre c (List.mem_cons_self _ _)
      rw [List.cons_append, _dir_search_scan, hm]
      dsimp only
      rw [if_neg hne]
      exact ih (fun x hx => hpre x (List.mem_cons_of_mem _ hx))

/-- C9, counterexample.  The claim says a path whose interior (non-final)
segment resolves to a stream entry fails with an error; on this concrete
directory the interior segment "a" resolves to a stream and `_dir_search`
returns that stream entry successfully, silently ignoring the remaining
segment "b". -/
theorem C9_counterexample :
    _dir_search [⟨0, "Root", 5, [1], 0, 0⟩, ⟨1, "a", 2, [], 3, 100⟩]
        ["a", "b"] 0 =
      .ok (some ⟨1, "a", 2, [], 3, 100⟩) := by
  unfold _dir_search
  simp only [List.get?]
  rw [_dir_search_scan]
  simp

/-- C9, amended.  `_dir_search` compares each path segment to child names
case-insensitively (`.lower()`); a matching entry of type stream (2) is
returned immediately — even when further (interior-position) segments
remain; a matching storage (1) in final position raises
"Requested component is a 'storage'" and otherwise recurses into the
storage with the remaining path; a matching entry of any other type
raises "Requested stream is not a 'user stream'"; a segment matching no
child yields `none` (not found). -/
theorem C9_dir_search_cases :
    (∀ (dl : List DirNode) (sid : Nat) (snode : DirNode) (head : String)
      (tail : List String) (pre : List Nat) (child : Nat) (rest : List Nat)
      (node : DirNode),
      dl.get? sid = some snode →
      snode.children = pre ++ child :: rest →
      (∀ c ∈ pre, ∃ m, dl.get? c = some m ∧ pyLower m.name ≠ pyLower head) →
      dl.get? child = some node →
      pyLower node.name = pyLower head →
      ((node.etype = 2 → _dir_search dl (head :: tail) sid = .ok (some node)) ∧
       (node.etype = 1 → tail = [] →
          _dir_search dl (head :: tail) sid =
            .error "Requested component is a 'storage'") ∧
       (node.etype = 1 → tail ≠ [] →
          _dir_search dl (head :: tail) sid = _dir_search dl tail child) ∧
       (node.etype ≠ 2 → node.etype ≠ 1 →
          _dir_search dl (head :: tail) sid =
            .error "Requested stream is not a 'user stream'"))) ∧
    (∀ (dl : List DirNode) (sid : Nat) (snode : DirNode) (head : String)
      (tail : List String),
      dl.get? sid = some snode →
      (∀ c ∈ snode.children,
        ∃ m, dl.get? c = some m ∧ pyLower m.name ≠ pyLower head) →
      _dir_search dl (head :: tail) sid = .ok none) := by
  constructor
  · intro dl sid snode head tail pre child rest node hsid hch hpre hchild hname
    have hstep : _dir_search dl (head :: tail) sid =
        _dir_search_scan dl (head :: tail) (child :: rest) := by
      unfold _dir_search
      rw [hsid]
      dsimp only
      rw [hch, dir_search_scan_skip dl head tail pre (child :: rest) hpre]
    rw [hstep, _dir_search_scan, hchild]
    dsimp only
    rw [if_pos hname]
    refine ⟨?_, ?_, ?_, ?_⟩
    · intro h2; rw [if_pos h2]
    · intro h1 ht
      rw [if_neg (by omega : ¬node.etype = 2), if_pos h1, if_pos ht]
    · intro h1 ht
      rw [if_neg (by omega : ¬node.etype = 2), if_pos h1, if_neg ht]
      unfold _dir_search
      rw [hchild]
    · intro h2 h1
      rw [if_neg h2, if_neg h1]
  · intro dl sid snode head tail hsid hall
    unfold _dir_search
    rw [hsid]
    dsimp only
    have hskip := dir_search_scan_skip dl head tail snode.children [] hall
    rw [List.append_nil] at hskip
    rw [hskip, _dir_search_scan]

theorem C9_dir_search_cases_witness :
    _dir_search [⟨0, "Root", 5, [1, 2], 0, 0⟩, ⟨1, "x", 2, [], 3, 9⟩,
        ⟨2, "Dir", 1, [3], 0, 0⟩, ⟨3, "wb", 2, [], 4, 9⟩]
        ["DIR"] 0 = .error "Requested component is a 'storage'" ∧
    _dir_search [⟨0, "Root", 5, [1, 2], 0, 0⟩, ⟨1, "x", 2, [], 3, 9⟩,
        ⟨2, "Dir", 1, [3], 0, 0⟩, ⟨3, "wb", 2, [], 4, 9⟩]
        ["DIR", "WB"] 0 =
      _dir_search [⟨0, "Root", 5, [1, 2], 0, 0⟩, ⟨1, "x", 2, [], 3, 9⟩,
        ⟨2, "Dir", 1, [3], 0, 0⟩, ⟨3, "wb", 2, [], 4, 9⟩] ["WB"] 2 ∧
    _dir_search [⟨0, "Root", 5, [1, 2], 0, 0⟩, ⟨1, "x", 2, [], 3, 9⟩,
        ⟨2, "Dir", 1, [3], 0, 0⟩, ⟨3, "wb", 2, [], 4, 9⟩]
        ["nope"] 0 = .ok none := by
  have h := C9_dir_search_cases
  refine ⟨?_, ?_, ?_⟩
  · exact (h.1 [⟨0, "Root", 5, [1, 2], 0, 0⟩, ⟨1, "x", 2, [], 3, 9⟩,
      ⟨2, "Dir", 1, [3], 0, 0⟩, ⟨3, "wb", 2, [], 4, 9⟩] 0
      ⟨0, "Root", 5, [1, 2], 0, 0⟩ "DIR" [] [1] 2 [] ⟨2, "Dir", 1, [3], 0, 0⟩
      rfl rfl (by decide) rfl (by decide)).2.1 rfl rfl
  · exact (h.1 [⟨0, "Root", 5, [1, 2], 0, 0⟩, ⟨1, "x", 2, [], 3, 9⟩,
      ⟨2, "Dir", 1, [3], 0, 0⟩, ⟨3, "wb", 2, [], 4, 9⟩] 0
      ⟨0, "Root", 5, [1, 2], 0, 0⟩ "DIR" ["WB"] [1] 2 [] ⟨2, "Dir", 1, [3], 0, 0⟩
      rfl rfl (by decide) rfl (by decide)).2.2.1 rfl (by decide)
  · exact h.2 [⟨0, "Root", 5, [1, 2], 0, 0⟩, ⟨1, "x", 2, [], 3, 9⟩,
      ⟨2, "Dir", 1, [3], 0, 0⟩, ⟨3, "wb", 2, [], 4, 9⟩] 0
      ⟨0, "Root", 5, [1, 2], 0, 0⟩ "nope" [] rfl (by decide)

/-! ## C8: encoding derivation precedence -/

/-- C8.  `derive_encoding` resolves the encoding with the claimed
precedence — the explicit override; else, for a known codepage, the
codepage→encoding table; else `cp<N>` for codepages 300–1999; else
`utf_16_le` (setting the codepage to 1200) for `biff_version ≥ 80`; else
the `unknown_codepage_<N>` fallback — and, whenever the resolved codepage
is not 1200, requires the resolved encoding to decode the trial ASCII
bytes, re-raising the failure otherwise. -/
theorem C8_derive_encoding_precedence (table : Nat → Option String)
    (f : String → Bool) (st : EncState) (e : String) (cp : Nat) :
    (st.encoding_override = some e →
      derive_encoding table f st =
        trial_decode_check f { st with encoding := some e }) ∧
    (st.encoding_override = none → st.codepage = some cp → table cp = some e →
      derive_encoding table f st =
        trial_decode_check f { st with encoding := some e }) ∧
    (st.encoding_override = none → st.codepage = some cp → table cp = none →
      300 ≤ cp → cp ≤ 1999 →
      derive_encoding table f st =
        trial_decode_check f { st with encoding := some ("cp" ++ toString cp) }) ∧
    (st.encoding_override = none → st.codepage = some cp → table cp = none →
      ¬(300 ≤ cp ∧ cp ≤ 1999) → 80 ≤ st.biff_version →
      derive_encoding table f st =
        .ok { st with codepage := some 1200, encoding := some "utf_16_le" }) ∧
    (st.encoding_override = none → st.codepage = some cp → table cp = none →
      ¬(300 ≤ cp ∧ cp ≤ 1999) → st.biff_version < 80 →
      derive_encoding table f st =
        trial_decode_check f
          { st with encoding := some ("unknown_codepage_" ++ toString cp) }) ∧
    (∀ (st1 : EncState) (e1 : String), st1.encoding = some e1 →
      st1.codepage ≠ some 1200 →
      (f e1 = true → trial_decode_check f st1 = .ok st1) ∧
      (f e1 = false → trial_decode_check f st1 =
        .error ("cannot decode trial bytes with " ++ e1))) ∧
    (∀ st1 : EncState, st1.codepage = some 1200 →
      trial_decode_check f st1 = .ok st1) := by
  refine ⟨?_, ?_, ?_, ?_, ?_, ?_, ?_⟩
  · intro hov
    simp [derive_encoding, hov]
  · intro hov hcp htab
    simp [derive_encoding, hov, hcp, htab]
  · intro hov hcp htab h3 h4
    simp [derive_encoding, hov, hcp, htab, h3, h4]
  · intro hov hcp htab hr hb
    simp [derive_encoding, trial_decode_check, hov, hcp, htab, hr, hb]
  · intro hov hcp htab hr hb
    have hb' : ¬80 ≤ st.biff_version := by omega
    simp [derive_encoding, hov, hcp, htab, hr, hb']
  · intro st1 e1 henc hcp
    constructor
    · intro hf; simp [trial_decode_check, henc, hcp, hf]
    · intro hf; simp [trial_decode_check, henc, hcp, hf]
  · intro st1 hcp
    simp [trial_decode_check, hcp]

theorem C8_derive_encoding_precedence_witness :
    derive_encoding (fun cp => if cp = 10000 then some "mac_roman" else none)
        (fun _ => true) ⟨none, some 10000, 70, none⟩ =
      .ok ⟨none, some 10000, 70, some "mac_roman"⟩ ∧
    derive_encoding (fun _ => none) (fun _ => true)
        ⟨none, some 1251, 70, none⟩ =
      .ok ⟨none, some 1251, 70, some "cp1251"⟩ ∧
    derive_encoding (fun _ => none) (fun _ => true)
        ⟨none, some 2000, 80, none⟩ =
      .ok ⟨none, some 1200, 80, some "utf_16_le"⟩ ∧
    derive_encoding (fun _ => none) (fun _ => false)
        ⟨none, some 2000, 70, none⟩ =
      .error ("cannot decode trial bytes with " ++ "unknown_codepage_2000") ∧
    derive_encoding (fun _ => none) (fun _ => false)
        ⟨some "latin_1", some 437, 80, none⟩ =
      .error ("cannot decode trial bytes with " ++ "latin_1") := by
  refine ⟨?_, ?_, ?_, ?_, ?_⟩
  · have h := C8_derive_encoding_precedence
      (fun cp => if cp = 10000 then some "mac_roman" else none)
      (fun _ => true) ⟨none, some 10000, 70, none⟩ "mac_roman" 10000
    rw [h.2.1 rfl rfl (by decide)]
    exact ((h.2.2.2.2.2.1 _ "mac_roman" rfl (by decide)).1 rfl)
  · have h := C8_derive_encoding_precedence (fun _ => none) (fun _ => true)
      ⟨none, some 1251, 70, none⟩ "x" 1251
    rw [h.2.2.1 rfl rfl rfl (by decide) (by decide)]
    exact ((h.2.2.2.2.2.1 _ "cp1251" rfl (by decide)).1 rfl)
  · have h := C8_derive_encoding_precedence (fun _ => none) (fun _ => true)
      ⟨none, some 2000, 80, none⟩ "x" 2000
    exact h.2.2.2.1 rfl rfl rfl (by decide) (by decide)
  · have h := C8_derive_encoding_precedence (fun _ => none) (fun _ => false)
      ⟨none, some 2000, 70, none⟩ "x" 2000
    rw [h.2.2.2.2.1 rfl rfl rfl (by decide) (by decide)]
    exact ((h.2.2.2.2.2.1 _ "unknown_codepage_2000" rfl (by decide)).2 rfl)
  · have h := C8_derive_encoding_precedence (fun _ => none) (fun _ => false)
      ⟨some "latin_1", some 437, 80, none⟩ "latin_1" 437
    rw [h.1 rfl]
    exact ((h.2.2.2.2.2.1 _ "latin_1" rfl (by decide)).2 rfl)

/-! ## C5: BOF version detection -/

/-- C5.  `bofVersion`/`getbof` map the supported revision byte patterns to
their version identifiers: version word 0x0600 gives 80; 0x0500 gives 50
when year < 1994 or build ∈ {2412, 3218, 3321} and 70 otherwise;
0x0000/0x0007/0x0200 give 21, 0x0300 gives 30, 0x0400 gives 40; opcode
high bytes 0x04/0x02/0x00 give 40/30/21; version 40 with the 4W-globals
stream type gives 45.  A workspace stream (stream type 0x0100 with
version ≥ 50) fails with the "Workspace file -- no spreadsheet data"
diagnostic, an unrecognized stream-kind/version combination fails with an
unsupported-format error, and an unrecognized version word with a matching
stream kind makes `open_workbook_xls`'s check fail. -/
theorem C5_bof_version_detection (b y : Nat) :
    (bofVersion 8 0x600 b y = 80) ∧
    ((y < 1994 ∨ b = 2412 ∨ b = 3218 ∨ b = 3321) →
      bofVersion 8 0x500 b y = 50) ∧
    (¬(y < 1994 ∨ b = 2412 ∨ b = 3218 ∨ b = 3321) →
      bofVersion 8 0x500 b y = 70) ∧
    (bofVersion 8 0x0000 b y = 21) ∧ (bofVersion 8 0x0007 b y = 21) ∧
    (bofVersion 8 0x0200 b y = 21) ∧ (bofVersion 8 0x0300 b y = 30) ∧
    (bofVersion 8 0x0400 b y = 40) ∧
    (bofVersion 4 0 b y = 40) ∧ (bofVersion 2 0 b y = 30) ∧
    (bofVersion 0 0 b y = 21) ∧
    (b < 65536 → y < 65536 →
      getbof (mkBOF8 0x600 XL_WORKBOOK_GLOBALS b y) 0 XL_WORKBOOK_GLOBALS =
        .ok (80, 20)) ∧
    (b < 65536 → y < 1994 →
      getbof (mkBOF8 0x500 XL_WORKBOOK_GLOBALS b y) 0 XL_WORKBOOK_GLOBALS =
        .ok (50, 20)) ∧
    (b < 65536 → y < 65536 → ¬(y < 1994 ∨ b = 2412 ∨ b = 3218 ∨ b = 3321) →
      getbof (mkBOF8 0x500 XL_WORKBOOK_GLOBALS b y) 0 XL_WORKBOOK_GLOBALS =
        .ok (70, 20)) ∧
    (getbof (mkBOF4S 0x409 XL_WORKSHEET) 0 XL_WORKSHEET = .ok (40, 12)) ∧
    (getbof (mkBOF4S 0x209 XL_WORKSHEET) 0 XL_WORKSHEET = .ok (30, 12)) ∧
    (getbof (mkBOF4S 0x009 XL_WORKSHEET) 0 XL_WORKSHEET = .ok (21, 12)) ∧
    (getbof (mkBOF4S 0x409 XL_WORKBOOK_GLOBALS_4W) 0 XL_WORKBOOK_GLOBALS =
      .ok (45, 12)) ∧
    (b < 65536 → y < 65536 →
      getbof (mkBOF8 0x600 0x100 b y) 0 XL_WORKBOOK_GLOBALS =
        .error "Unsupported format, or corrupt file: Workspace file -- no spreadsheet data") ∧
    (b < 65536 → y < 65536 →
      getbof (mkBOF8 0x600 0x20 b y) 0 XL_WORKBOOK_GLOBALS =
        .error "Unsupported format, or corrupt file: BOF not workbook/worksheet") ∧
    (b < 65536 → y < 65536 →
      open_workbook_version_check (mkBOF8 0x700 XL_WORKBOOK_GLOBALS b y) =
        .error "Can't determine file's BIFF version") := by
  refine ⟨by simp [bofVersion], ?_, ?_, by simp [bofVersion], by simp [bofVersion],
    by simp [bofVersion], by simp [bofVersion], by simp [bofVersion],
    by simp [bofVersion], by simp [bofVersion], by simp [bofVersion],
    ?_, ?_, ?_, by rfl, by rfl, by rfl, by rfl, ?_, ?_, ?_⟩
  · intro h; simp [bofVersion, h]
  · intro h; simp [bofVersion, h]
  · intro hb hy
    have hbb : b % 256 + 256 * (b / 256) = b := by omega
    have hyy : y % 256 + 256 * (y / 256) = y := by omega
    simp [getbof, mkBOF8, get2bytes, pySlice, unpack2LE, bofVersion, boflen,
      bofcodes, MY_EOF, XL_WORKBOOK_GLOBALS, XL_WORKBOOK_GLOBALS_4W, hbb, hyy]
  · intro hb hy
    have hbb : b % 256 + 256 * (b / 256) = b := by omega
    have hyy : y % 256 + 256 * (y / 256) = y := by omega
    have h50 : y < 1994 ∨ b = 2412 ∨ b = 3218 ∨ b = 3321 := Or.inl hy
    simp [getbof, mkBOF8, get2bytes, pySlice, unpack2LE, bofVersion, boflen,
      bofcodes, MY_EOF, XL_WORKBOOK_GLOBALS, XL_WORKBOOK_GLOBALS_4W, hbb, hyy, h50]
  · intro hb hy h
    have hbb : b % 256 + 256 * (b / 256) = b := by omega
    have hyy : y % 256 + 256 * (y / 256) = y := by omega
    simp [getbof, mkBOF8, get2bytes, pySlice, unpack2LE, bofVersion, boflen,
      bofcodes, MY_EOF, XL_WORKBOOK_GLOBALS, XL_WORKBOOK_GLOBALS_4W, hbb, hyy, h]
  · intro hb hy
    have hbb : b % 256 + 256 * (b / 256) = b := by omega
    have hyy : y % 256 + 256 * (y / 256) = y := by omega
    simp [getbof, mkBOF8, get2bytes, pySlice, unpack2LE, bofVersion, boflen,
      bofcodes, MY_EOF, XL_WORKBOOK_GLOBALS, XL_WORKBOOK_GLOBALS_4W,
      XL_WORKSHEET, hbb, hyy]
  · intro hb hy
    have hbb : b % 256 + 256 * (b / 256) = b := by omega
    have hyy : y % 256 + 256 * (y / 256) = y := by omega
    simp [getbof, mkBOF8, get2bytes, pySlice, unpack2LE, bofVersion, boflen,
      bofcodes, MY_EOF, XL_WORKBOOK_GLOBALS, XL_WORKBOOK_GLOBALS_4W,
      XL_WORKSHEET, hbb, hyy]
  · intro hb hy
    have hbb : b % 256 + 256 * (b / 256) = b := by omega
    have hyy : y % 256 + 256 * (y / 256) = y := by omega
    simp [open_workbook_version_check, getbof, mkBOF8, get2bytes, pySlice,
      unpack2LE, bofVersion, boflen, bofcodes, MY_EOF, XL_WORKBOOK_GLOBALS,
      XL_WORKBOOK_GLOBALS_4W, hbb, hyy]

theorem C5_bof_version_detection_witness :
    bofVersion 8 0x500 1993 1993 = 50 ∧
    bofVersion 8 0x500 1 2000 = 70 ∧
    getbof (mkBOF8 0x600 XL_WORKBOOK_GLOBALS 3515 1996) 0 XL_WORKBOOK_GLOBALS =
      .ok (80, 20) ∧
    getbof (mkBOF8 0x600 0x100 3515 1996) 0 XL_WORKBOOK_GLOBALS =
      .error "Unsupported format, or corrupt file: Workspace file -- no spreadsheet data" ∧
    open_workbook_version_check (mkBOF8 0x700 XL_WORKBOOK_GLOBALS 3515 1996) =
      .error "Can't determine file's BIFF version" := by
  have h1 := C5_bof_version_detection 1993 1993
  have h2 := C5_bof_version_detection 1 2000
  have h3 := C5_bof_version_detection 3515 1996
  exact ⟨h1.2.1 (by decide), h2.2.2.1 (by decide),
    h3.2.2.2.2.2.2.2.2.2.2.2.1 (by decide) (by decide),
    h3.2.2.2.2.2.2.2.2.2.2.2.2.2.2.2.2.2.2.1 (by decide) (by decide),
    h3.2.2.2.2.2.2.2.2.2.2.2.2.2.2.2.2.2.2.2.2 (by decide) (by decide)⟩

/-! ## C7: master / sector allocation table construction -/

theorem get?_of_lt_length (l : List Nat) (i : Nat) (h : i < l.length) :
    l.get? i = some (l.getD i 0) := by
  simp [List.getD, List.get?_eq_getElem?, List.getElem?_eq_getElem h]

theorem length_flatten_const {α β : Type} (l : List α) (f : α → List β)
    (c : Nat) (h : ∀ x ∈ l, (f x).length = c) :
    ((l.map f).flatten).length = l.length * c := by
  induction l with
  | nil => simp
  | cons x l' ih =>
      simp only [List.map_cons, List.flatten_cons, List.length_append,
        List.length_cons]
      rw [h x (List.mem_cons_self _ _), ih (fun z hz => h z (List.mem_cons_of_mem _ hz))]
      ring

theorem build_MSAT_ext_spec (ids : List Nat) (mem : List Nat)
    (sec nent mds : Nat) :
    ∀ (seen : List Nat) (MSAT : List Int) (s e : Int) (k : Nat),
    MSATXPath mem sec nent s ids e →
    (e = EOCSID ∨ e = FREESID ∨ e = MSATSID) →
    (∀ id ∈ ids, id < mds ∧ id < seen.length ∧ seen.getD id 0 = 0 ∧
      512 + sec * id + sec ≤ mem.length) →
    ids.Nodup →
    ∃ seenF,
      build_MSAT_ext mem sec nent mds seen MSAT s k =
        .ok (MSAT ++ (ids.map
            (fun id => (readSectorInts mem (512 + sec * id) nent).dropLast)).flatten,
          seenF, k + ids.length) := by
  induction ids with
  | nil =>
      intro seen MSAT s e k hpath hsent _ _
      cases hpath
      exact ⟨seen, by rw [build_MSAT_ext, if_pos hsent]; simp⟩
  | cons id rest ih =>
      intro seen MSAT s e k hpath hsent hb hnd
      cases hpath with
      | cons hs hlast hrest =>
          obtain ⟨hmds, hlen, hz, hmem⟩ := hb id (List.mem_cons_self _ _)
          rw [build_MSAT_ext]
          rw [if_neg (by rw [hs]; simp only [EOCSID, FREESID, MSATSID]; omega)]
          rw [if_neg (by rw [hs]; push_cast; omega)]
          rw [if_neg (by rw [hs]; omega)]
          have htn : s.toNat = id := by rw [hs]; simp
          rw [htn]
          rw [dif_neg (by omega)]
          rw [dif_neg (by exact fun hcon => hcon hz)]
          try dsimp only
          rw [if_neg (by omega)]
          try dsimp only
          rw [hlast]
          try dsimp only
          have hb' : ∀ x ∈ rest, x < mds ∧ x < (seen.set id 1).length ∧
              (seen.set id 1).getD x 0 = 0 ∧ 512 + sec * x + sec ≤ mem.length := by
            intro x hx
            obtain ⟨a1, a2, a3, a4⟩ := hb x (List.mem_cons_of_mem _ hx)
            have hne : id ≠ x := by
              intro hcon; subst hcon; exact (List.nodup_cons.mp hnd).1 hx
            exact ⟨a1, by simpa using a2, by rw [getD_set_ne _ _ _ _ hne]; exact a3, a4⟩
          obtain ⟨seenF, hrec⟩ := ih (seen.set id 1)
            (MSAT ++ (readSectorInts mem (512 + sec * id) nent).dropLast) _ e
            (k + 1) hrest hsent hb' (List.nodup_cons.mp hnd).2
          refine ⟨seenF, ?_⟩
          rw [hrec]
          simp [List.append_assoc, Nat.add_assoc, Nat.add_comm 1 rest.length]

/-- C7.  The master allocation table starts from the 109 fixed in-header
entries; each of the `k` extension sectors contributes `nent - 1` entries
plus the popped next link, so after the chain the MSAT holds
`109 + k*(nent − 1)` entries; a revisited extension sector raises the
corruption error; and the SAT is built by appending exactly one sector's
worth (`nent` 32-bit entries) for each in-range, non-sentinel MSAT entry,
in MSAT order. -/
theorem C7_allocation_table_construction (mem : List Nat)
    (sec nent mds : Nat) (seen : List Nat) (first tot : Int)
    (ids : List Nat) (e : Int) (msat M : List Int) (id k : Nat) :
    ((tot = 0 ∧ (first = EOCSID ∨ first = FREESID ∨ first = 0)) →
      512 ≤ mem.length →
      compdoc_build_MSAT mem sec nent mds seen first tot =
        .ok (readSectorInts mem 76 109, seen, 0) ∧
      (readSectorInts mem 76 109).length = 109) ∧
    (512 ≤ mem.length → tot ≠ 0 →
      MSATXPath mem sec nent first ids e →
      (e = EOCSID ∨ e = FREESID ∨ e = MSATSID) →
      (∀ i ∈ ids, i < mds ∧ i < seen.length ∧ seen.getD i 0 = 0 ∧
        512 + sec * i + sec ≤ mem.length) →
      ids.Nodup →
      ∃ seenF,
        compdoc_build_MSAT mem sec nent mds seen first tot =
          .ok (readSectorInts mem 76 109 ++ (ids.map
              (fun i => (readSectorInts mem (512 + sec * i) nent).dropLast)).flatten,
            seenF, ids.length) ∧
        (readSectorInts mem 76 109 ++ (ids.map
            (fun i => (readSectorInts mem (512 + sec * i) nent).dropLast)).flatten).length
          = 109 + ids.length * (nent - 1)) ∧
    (id < mds → id < seen.length → seen.getD id 0 ≠ 0 →
      build_MSAT_ext mem sec nent mds seen M (id : Int) k =
        .error "MSAT corruption: seen") ∧
    ((∀ x ∈ msat, x = FREESID ∨ x = EOCSID ∨ (0 ≤ x ∧ x < (mds : Int))) →
      (msat_valid_entries msat mds).Nodup →
      (∀ v ∈ msat_valid_entries msat mds, v < seen.length ∧
        seen.getD v 0 = 0 ∧ 512 + sec * v + sec ≤ mem.length) →
      ∃ seenF,
        compdoc_build_SAT mem sec nent mds msat seen =
          .ok (((msat_valid_entries msat mds).map
              (fun v => readSectorInts mem (512 + sec * v) nent)).flatten, seenF) ∧
        (((msat_valid_entries msat mds).map
            (fun v => readSectorInts mem (512 + sec * v) nent)).flatten).length
          = nent * (msat_valid_entries msat mds).length) := by
  refine ⟨?_, ?_, ?_, ?_⟩
  · intro hskip hlen
    constructor
    · unfold compdoc_build_MSAT
      rw [if_neg (by omega)]
      dsimp only
      rw [if_pos hskip]
    · exact readSectorInts_length mem 76 109
  · intro hlen htot hpath hsent hb hnd
    obtain ⟨seenF, hres⟩ := build_MSAT_ext_spec ids mem sec nent mds seen
      (readSectorInts mem 76 109) first e 0 hpath hsent hb hnd
    refine ⟨seenF, ?_, ?_⟩
    · unfold compdoc_build_MSAT
      rw [if_neg (by omega)]
      rw [if_neg (by intro hcon; exact htot hcon.1)]
      simpa using hres
    · rw [List.length_append, readSectorInts_length,
        length_flatten_const _ _ (nent - 1)
          (fun x _ => by rw [List.length_dropLast, readSectorInts_length])]
  · intro hmds hlen hnz
    rw [build_MSAT_ext]
    rw [if_neg (by simp only [EOCSID, FREESID, MSATSID]; omega)]
    rw [if_neg (by push_cast; omega)]
    rw [if_neg (by omega)]
    have htn : ((id : Int)).toNat = id := by simp
    rw [htn]
    rw [dif_neg (by omega)]
    rw [dif_pos hnz]
  · intro hval hnd hb
    have key : ∀ (ms : List Int) (sn : List Nat) (SAT : List Int) (dump : Bool),
        (∀ x ∈ ms, x = FREESID ∨ x = EOCSID ∨ (0 ≤ x ∧ x < (mds : Int))) →
        (msat_valid_entries ms mds).Nodup →
        (∀ v ∈ msat_valid_entries ms mds, v < sn.length ∧
          sn.getD v 0 = 0 ∧ 512 + sec * v + sec ≤ mem.length) →
        ∃ seenF,
          build_SAT_loop mem sec nent mds ms sn SAT dump =
            .ok (SAT ++ ((msat_valid_entries ms mds).map
                (fun v => readSectorInts mem (512 + sec * v) nent)).flatten,
              seenF, dump) := by
      intro ms
      induction ms with
      | nil => intro sn SAT dump _ _ _; exact ⟨sn, by simp [build_SAT_loop, msat_valid_entries]⟩
      | cons x ms' ih =>
          intro sn SAT dump hv hn hbb
          rcases hv x (List.mem_cons_self _ _) with hx | hx | hx
          · have hvv : msat_valid_entries (x :: ms') mds =
                msat_valid_entries ms' mds := by
              simp [msat_valid_entries, hx, FREESID]
            rw [build_SAT_loop, if_pos (Or.inl hx)]
            rw [hvv] at hn hbb ⊢
            exact ih sn SAT dump (fun z hz => hv z (List.mem_cons_of_mem _ hz)) hn hbb
          · have hvv : msat_valid_entries (x :: ms') mds =
                msat_valid_entries ms' mds := by
              simp [msat_valid_entries, hx, EOCSID]
            rw [build_SAT_loop, if_pos (Or.inr hx)]
            rw [hvv] at hn hbb ⊢
            exact ih sn SAT dump (fun z hz => hv z (List.mem_cons_of_mem _ hz)) hn hbb
          · have hvv : msat_valid_entries (x :: ms') mds =
                x.toNat :: msat_valid_entries ms' mds := by
              simp [msat_valid_entries, hx.1, hx.2]
            obtain ⟨b1, b2, b3⟩ := hbb x.toNat (by rw [hvv]; exact List.mem_cons_self _ _)
            rw [build_SAT_loop]
            rw [if_neg (by simp only [FREESID, EOCSID]; omega)]
            rw [if_neg (by omega)]
            rw [if_neg (by omega)]
            rw [if_neg (by omega)]
            rw [if_neg (by exact fun hcon => hcon b2)]
            try dsimp only
            rw [if_neg (by omega)]
            have hn' : (msat_valid_entries ms' mds).Nodup := by
              rw [hvv] at hn; exact (List.nodup_cons.mp hn).2
            have hnotmem : x.toNat ∉ msat_valid_entries ms' mds := by
              rw [hvv] at hn; exact (List.nodup_cons.mp hn).1
            have hbb' : ∀ v ∈ msat_valid_entries ms' mds,
                v < (sn.set x.toNat 2).length ∧ (sn.set x.toNat 2).getD v 0 = 0 ∧
                512 + sec * v + sec ≤ mem.length := by
              intro v hvm
              obtain ⟨c1, c2, c3⟩ := hbb v (by rw [hvv]; exact List.mem_cons_of_mem _ hvm)
              refine ⟨by simpa using c1, ?_, c3⟩
              rw [getD_set_ne _ _ _ _ (fun hc => hnotmem (by rw [hc]; exact hvm))]
              exact c2
            obtain ⟨seenF, hrec⟩ := ih (sn.set x.toNat 2)
              (SAT ++ readSectorInts mem (512 + sec * x.toNat) nent) dump
              (fun z hz => hv z (List.mem_cons_of_mem _ hz))
              hn' hbb'
            refine ⟨seenF, ?_⟩
            rw [hrec, hvv]
            simp [List.append_assoc]
    obtain ⟨seenF, hres⟩ := key msat seen [] false hval hnd hb
    refine ⟨seenF, ?_, ?_⟩
    · unfold compdoc_build_SAT
      rw [hres]
      simp
    · rw [length_flatten_const _ _ nent
        (fun x _ => readSectorInts_length mem _ nent)]
      ring

set_option maxRecDepth 4000 in
theorem C7_allocation_table_construction_witness :
    (∃ seenF,
      compdoc_build_MSAT (List.replicate 512 0 ++ [7, 0, 0, 0, 254, 255, 255, 255])
          8 2 1 [0] 0 1 =
        .ok (readSectorInts (List.replicate 512 0 ++ [7, 0, 0, 0, 254, 255, 255, 255])
            76 109 ++
          (([0] : List Nat).map (fun i =>
            (readSectorInts (List.replicate 512 0 ++ [7, 0, 0, 0, 254, 255, 255, 255])
              (512 + 8 * i) 2).dropLast)).flatten, seenF, 1) ∧
      (readSectorInts (List.replicate 512 0 ++ [7, 0, 0, 0, 254, 255, 255, 255])
          76 109 ++
        (([0] : List Nat).map (fun i =>
          (readSectorInts (List.replicate 512 0 ++ [7, 0, 0, 0, 254, 255, 255, 255])
            (512 + 8 * i) 2).dropLast)).flatten).length = 109 + 1 * (2 - 1)) ∧
    (build_MSAT_ext (List.replicate 512 0 ++ [7, 0, 0, 0, 254, 255, 255, 255])
        8 2 1 [9] [] ((0 : Nat) : Int) 0 = .error "MSAT corruption: seen") ∧
    (∃ seenF,
      compdoc_build_SAT (List.replicate 576 0) 8 2 8 [7, -2] (List.replicate 8 0) =
        .ok (((msat_valid_entries [7, -2] 8).map (fun v =>
            readSectorInts (List.replicate 576 0) (512 + 8 * v) 2)).flatten, seenF) ∧
      (((msat_valid_entries [7, -2] 8).map (fun v =>
          readSectorInts (List.replicate 576 0) (512 + 8 * v) 2)).flatten).length =
        2 * (msat_valid_entries [7, -2] 8).length) := by
  have h := C7_allocation_table_construction
    (List.replicate 512 0 ++ [7, 0, 0, 0, 254, 255, 255, 255]) 8 2 1 [0] 0 1
    [0] (-2) [] [] 0 0
  have h2 := C7_allocation_table_construction
    (List.replicate 576 0) 8 2 8 (List.replicate 8 0) 0 1 [] (-2) [7, -2] [] 0 0
  have h3 := C7_allocation_table_construction
    (List.replicate 512 0 ++ [7, 0, 0, 0, 254, 255, 255, 255]) 8 2 1 [9] 0 1
    [0] (-2) [] [] 0 0
  refine ⟨?_, ?_, ?_⟩
  · exact h.2.1 (by decide) (by decide)
      (MSATXPath.cons (by norm_num) (by decide) (MSATXPath.nil (-2)))
      (Or.inl rfl) (by decide) (by decide)
  · exact h3.2.2.1 (by decide) (by decide) (by decide)
  · exact h2.2.2.2 (by decide) (by decide) (by decide)

/-! ## C3: sector revisits in `_locate_stream` (strict vs lenient) -/

theorem sector_bytes_length (mem : List Nat) (base sec id : Nat)
    (h : base + id * sec + sec ≤ mem.length) :
    (sector_bytes mem base sec id).length = sec := by
  rw [sector_bytes, pySlice_length]
  omega

theorem chain_bytes_length (mem : List Nat) (base sec : Nat) (sids : List Nat)
    (h : ∀ x ∈ sids, base + x * sec + sec ≤ mem.length) :
    (chain_bytes mem base sec sids).length = sids.length * sec :=
  length_flatten_const sids _ sec (fun x hx => sector_bytes_length mem base sec x (h x hx))

theorem le_ceil_mul (e s : Nat) (hs : 0 < s) : e ≤ ((e + s - 1) / s) * s := by
  have h := Nat.div_add_mod (e + s - 1) s
  have hr := Nat.mod_lt (e + s - 1) hs
  rw [Nat.mul_comm]
  omega

theorem pySlice_take (mem : List Nat) (a b n : Nat) (h : n ≤ b - a) :
    (pySlice mem a b).take n = pySlice mem a (a + n) := by
  unfold pySlice
  rw [List.take_take]
  congr 1
  omega

/-- The walk of `locate_stream_loop` in strict mode errors with the
corruption message at the first sector already present in the `seen`
array (either marked by an earlier walk, or visited earlier in this very
chain). -/
theorem locate_loop_revisit (mem : List Nat) (base : Nat) (sat : List Int)
    (sec sid_ flim : Nat) (id : Nat) :
    ∀ (pre : List Nat) (s p sp ep : Int) (slices : List (Int × Int))
      (tf : Nat) (seen : List Nat),
    SatPath sat s pre (id : Int) →
    (∀ x ∈ pre, x < seen.length ∧ seen.getD x 0 = 0) →
    pre.Nodup →
    id < seen.length →
    (seen.getD id 0 ≠ 0 ∨ id ∈ pre) →
    sid_ ≠ 0 →
    tf + pre.length ≤ flim →
    locate_stream_loop mem base sat sec false sid_ flim seen slices s p sp ep tf =
      .error "corruption: seen" := by
  intro pre
  induction pre with
  | nil =>
      intro s p sp ep slices tf seen hpath hpre hnd hid hrv hsid hcnt
      cases hpath
      have hz : seen.getD id 0 ≠ 0 := by
        rcases hrv with h | h
        · exact h
        · simp at h
      rw [locate_stream_loop]
      rw [if_neg (by omega)]
      rw [if_neg (by simp only [Int.toNat_ofNat]; omega)]
      rw [if_pos (by simp only [Int.toNat_ofNat]; exact ⟨hz, by simp⟩)]
  | cons x pre' ih =>
      intro s p sp ep slices tf seen hpath hpre hnd hid hrv hsid hcnt
      cases hpath with
      | cons hs hlt hrest =>
          obtain ⟨hxlen, hxz⟩ := hpre x (List.mem_cons_self _ _)
          have htn : s.toNat = x := by rw [hs]; simp
          rw [locate_stream_loop]
          rw [if_neg (by rw [hs]; omega)]
          rw [htn]
          rw [if_neg (by omega)]
          rw [if_neg (by rw [hxz]; simp)]
          rw [dif_neg (by simp only [List.length_cons] at hcnt ⊢; omega)]
          try dsimp only
          rw [if_neg (by omega)]
          apply ih
          · exact hrest
          · intro y hy
            obtain ⟨hy1, hy2⟩ := hpre y (List.mem_cons_of_mem _ hy)
            have hne : x ≠ y := by
              intro hcon; subst hcon; exact (List.nodup_cons.mp hnd).1 hy
            exact ⟨by simpa using hy1, by rw [getD_set_ne _ _ _ _ hne]; exact hy2⟩
          · exact (List.nodup_cons.mp hnd).2
          · simpa using hid
          · rcases hrv with h | h
            · by_cases hxe : x = id
              · subst hxe
                left
                rw [getD_set_self _ _ _ hxlen]
                exact hsid
              · left
                rw [getD_set_ne _ _ _ _ hxe]
                exact h
            · rcases List.mem_cons.mp h with h | h
              · subst h
                left
                rw [getD_set_self _ _ _ hxlen]
                exact hsid
              · right
                exact h
          · exact hsid
          · simp only [List.length_cons] at hcnt
            omega

/-- The walk of `locate_stream_loop` over a terminating chain (all sectors
in bounds of the `seen` array; either lenient mode, or no sector of the
chain previously seen) completes, visiting exactly the chain, and
accumulates slices whose bytes are exactly the chain's sector bytes
appended to the incoming run. -/
theorem locate_loop_run (mem : List Nat) (base : Nat) (sat : List Int)
    (sec sid_ flim : Nat) (ign : Bool) :
    ∀ (sids : List Nat) (s p sp ep : Int) (slices : List (Int × Int))
      (tf : Nat) (seen : List Nat),
    SatPath sat s sids EOCSID →
    (∀ x ∈ sids, x < seen.length) →
    (ign = true ∨ ∀ x ∈ sids, seen.getD x 0 = 0) →
    sids.Nodup →
    tf + sids.length ≤ flim →
    0 ≤ p →
    ep = (base : Int) + (p + 1) * sec →
    0 ≤ sp → sp ≤ ep →
    ∃ seenF slicesF spF epF,
      locate_stream_loop mem base sat sec ign sid_ flim seen slices s p sp ep tf =
        .ok (seenF, slicesF, spF, epF, tf + sids.length) ∧
      ((slicesF ++ [(spF, epF)]).map
          (fun q => pySlice mem q.1.toNat q.2.toNat)).flatten =
        ((slices ++ [(sp, ep)]).map
            (fun q => pySlice mem q.1.toNat q.2.toNat)).flatten ++
          chain_bytes mem base sec sids ∧
      0 ≤ spF ∧ spF ≤ epF := by
  intro sids
  induction sids with
  | nil =>
      intro s p sp ep slices tf seen hpath hb hok hnd hcnt hp hep hsp1 hsp2
      cases hpath
      refine ⟨seen, slices, sp, ep, ?_, by simp [chain_bytes], hsp1, hsp2⟩
      rw [locate_stream_loop]
      rw [if_pos (by simp [EOCSID])]
      rw [if_neg (by simp)]
      simp
  | cons id rest ih =>
      intro s p sp ep slices tf seen hpath hb hok hnd hcnt hp hep hsp1 hsp2
      cases hpath with
      | cons hs hlt hrest =>
          have hidlen : id < seen.length := hb id (List.mem_cons_self _ _)
          have htn : s.toNat = id := by rw [hs]; simp
          rw [locate_stream_loop]
          rw [if_neg (by rw [hs]; omega)]
          rw [htn]
          rw [if_neg (by omega)]
          rw [if_neg (by
            rcases hok with h | h
            · rw [h]; simp
            · rw [h id (List.mem_cons_self _ _)]; simp)]
          rw [dif_neg (by simp only [List.length_cons] at hcnt ⊢; omega)]
          try dsimp only
          rw [if_neg (by omega)]
          have hb' : ∀ x ∈ rest, x < (seen.set id sid_).length := by
            intro y hy; simpa using hb y (List.mem_cons_of_mem _ hy)
          have hok' : ign = true ∨ ∀ x ∈ rest, (seen.set id sid_).getD x 0 = 0 := by
            rcases hok with h | h
            · exact Or.inl h
            · right
              intro y hy
              have hne : id ≠ y := by
                intro hcon; subst hcon; exact (List.nodup_cons.mp hnd).1 hy
              rw [getD_set_ne _ _ _ _ hne]
              exact h y (List.mem_cons_of_mem _ hy)
          have hnd' := (List.nodup_cons.mp hnd).2
          have hcnt' : (tf + 1) + rest.length ≤ flim := by
            simp only [List.length_cons] at hcnt; omega
          by_cases hc : s = p + 1
          · rw [if_pos hc]
            try dsimp only
            have hep' : ep + (sec : Int) = (base : Int) + (s + 1) * sec := by
              rw [hep, hc]; ring
            obtain ⟨seenF, slicesF, spF, epF, hres, hbytes, hf1, hf2⟩ :=
              ih (sat.getD id 0) s sp (ep + sec) slices (tf + 1) (seen.set id sid_)
                hrest hb' hok' hnd' hcnt' (by rw [hs]; positivity)
                hep' hsp1 (by omega)
            refine ⟨seenF, slicesF, spF, epF, ?_, ?_, hf1, hf2⟩
            · rw [hres]
              simp [List.length_cons, Nat.add_assoc, Nat.add_comm 1 rest.length]
            · rw [hbytes]
              have hepid : ep = (base : Int) + (id : Int) * sec := by
                rw [hep, ← hc, hs]
              have h1 : ep.toNat = base + id * sec := by
                rw [hepid]; push_cast; omega
              have h2 : (ep + (sec : Int)).toNat = base + id * sec + sec := by
                rw [hepid]; push_cast; omega
              have hsplit : pySlice mem sp.toNat (ep + (sec : Int)).toNat =
                  pySlice mem sp.toNat ep.toNat ++ sector_bytes mem base sec id := by
                rw [h1, h2, sector_bytes]
                refine pySlice_split mem sp.toNat (base + id * sec) _ ?_ ?_
                · rw [← h1]; omega
                · omega
              simp only [List.map_append, List.map_cons, List.map_nil,
                List.flatten_append, List.flatten_cons, List.flatten_nil,
                List.append_nil, chain_bytes] at *
              rw [hsplit]
              simp [chain_bytes, List.append_assoc]
          · rw [if_neg hc]
            try dsimp only
            rw [if_pos hp]
            obtain ⟨seenF, slicesF, spF, epF, hres, hbytes, hf1, hf2⟩ :=
              ih (sat.getD id 0) s ((base : Int) + s * sec)
                ((base : Int) + s * sec + sec) (slices ++ [(sp, ep)]) (tf + 1)
                (seen.set id sid_) hrest hb' hok' hnd' hcnt'
                (by rw [hs]; positivity) (by rw [hs]; push_cast; ring)
                (by rw [hs]; positivity) (by omega)
            refine ⟨seenF, slicesF, spF, epF, ?_, ?_, hf1, hf2⟩
            · rw [hres]
              simp [List.length_cons, Nat.add_assoc, Nat.add_comm 1 rest.length]
            · rw [hbytes]
              have h1 : ((base : Int) + s * sec).toNat = base + id * sec := by
                rw [hs]; push_cast; omega
              have h2 : ((base : Int) + s * sec + sec).toNat =
                  base + id * sec + sec := by
                rw [hs]; push_cast; omega
              have hsec : pySlice mem ((base : Int) + s * sec).toNat
                  ((base : Int) + s * sec + sec).toNat =
                  sector_bytes mem base sec id := by
                rw [h1, h2, sector_bytes]
              simp only [List.map_append, List.map_cons, List.map_nil,
                List.flatten_append, List.flatten_cons, List.flatten_nil,
                List.append_nil, chain_bytes] at *
              rw [hsec]
              simp [List.append_assoc]

/-- C3.  During `_locate_stream`'s chain walk, hitting a sector already
marked in the `seen` array raises the corruption `CompDocError` when
`ignore_workbook_corruption` is off (first conjunct: the chain reaches a
sector that an earlier walk marked, or that this very chain already
visited); with `ignore_workbook_corruption` on, the same walk raises no
error and decodes the stream without truncation: it completes the whole
chain and returns a buffer whose first `expected_stream_size` bytes are
exactly the chain's sector bytes truncated to the declared size (second
conjunct: the revisit-tolerating hypothesis set places no constraint on
the `seen` array at all). -/
theorem C3_seen_revisit_strict_and_lenient (mem : List Nat) (base : Nat)
    (sat : List Int) (sec_size : Nat) (seen : List Nat) (seen_id : Nat)
    (expected : Nat) (start_sid : Int) (pre sids : List Nat) (id : Nat) :
    (SatPath sat start_sid pre (id : Int) →
      (∀ x ∈ pre, x < seen.length ∧ seen.getD x 0 = 0) →
      pre.Nodup → id < seen.length →
      (seen.getD id 0 ≠ 0 ∨ id ∈ pre) →
      seen_id ≠ 0 →
      pre.length ≤ (expected + sec_size - 1) / sec_size →
      locate_stream mem base sat sec_size start_sid expected false seen_id seen =
        .error "corruption: seen") ∧
    (SatPath sat start_sid sids EOCSID →
      (∀ x ∈ sids, x < seen.length) →
      sids.Nodup →
      sids.length = (expected + sec_size - 1) / sec_size →
      0 < sids.length →
      0 < sec_size →
      (∀ x ∈ sids, base + x * sec_size + sec_size ≤ mem.length) →
      ∃ buf off seenF,
        locate_stream mem base sat sec_size start_sid expected true seen_id seen =
          .ok (buf, off, expected, seenF) ∧
        located_bytes mem buf off expected =
          (chain_bytes mem base sec_size sids).take expected) := by
  constructor
  · intro hpath hpre hnd hid hrv hsid hcnt
    have hpos : 0 ≤ start_sid := by
      cases hpath with
      | nil => positivity
      | cons hs _ _ => rw [hs]; positivity
    unfold locate_stream
    rw [if_neg (by omega)]
    dsimp only
    rw [locate_loop_revisit mem base sat sec_size seen_id
      ((expected + sec_size - 1) / sec_size) id pre start_sid (-99) (-9999)
      (-8888) [] 0 seen hpath hpre hnd hid hrv hsid (by omega)]
  · intro hpath hb hnd hlencnt hpos0 hsec hbnd
    obtain ⟨id0, rest, rfl⟩ : ∃ id0 rest, sids = id0 :: rest := by
      cases sids with
      | nil => simp at hpos0
      | cons a l => exact ⟨a, l, rfl⟩
    cases hpath with
    | cons hs hlt hrest =>
        have hid0 : id0 < seen.length := hb id0 (List.mem_cons_self _ _)
        have htn : start_sid.toNat = id0 := by rw [hs]; simp
        simp only [List.length_cons] at hlencnt
        unfold locate_stream
        rw [if_neg (by rw [hs]; omega)]
        dsimp only
        rw [locate_stream_loop]
        rw [if_neg (by rw [hs]; omega)]
        rw [htn]
        rw [if_neg (by omega)]
        rw [if_neg (by simp)]
        rw [dif_neg (by omega)]
        try dsimp only
        rw [if_neg (show ¬(start_sid = -99 + 1) from by rw [hs]; omega)]
        rw [if_neg (show ¬((0 : Int) ≤ -99) from by norm_num)]
        rw [if_neg (show ¬(sat.length ≤ id0) from by omega)]
        try dsimp only
        simp only [Nat.zero_add]
        have hb' : ∀ x ∈ rest, x < (seen.set id0 seen_id).length := by
          intro y hy; simpa using hb y (List.mem_cons_of_mem _ hy)
        have hnd' := (List.nodup_cons.mp hnd).2
        obtain ⟨seenF, slicesF, spF, epF, hres, hbytes, hf1, hf2⟩ :=
          locate_loop_run mem base sat sec_size seen_id
            ((expected + sec_size - 1) / sec_size) true rest
            (sat.getD id0 0) start_sid ((base : Int) + start_sid * sec_size)
            ((base : Int) + start_sid * sec_size + sec_size) [] 1
            (seen.set id0 seen_id) hrest hb' (Or.inl rfl) hnd' (by omega)
            (by rw [hs]; positivity) (by rw [hs]; push_cast; ring)
            (by rw [hs]; positivity) (by omega)
        rw [hres]
        try dsimp only
        rw [if_neg (by omega)]
        have h1 : ((base : Int) + start_sid * sec_size).toNat =
            base + id0 * sec_size := by
          rw [hs]; push_cast; omega
        have h2 : ((base : Int) + start_sid * sec_size + sec_size).toNat =
            base + id0 * sec_size + sec_size := by
          rw [hs]; push_cast; omega
        have hchain :
            ((slicesF ++ [(spF, epF)]).map
              (fun q => pySlice mem q.1.toNat q.2.toNat)).flatten =
            chain_bytes mem base sec_size (id0 :: rest) := by
          rw [hbytes]
          simp only [List.nil_append, List.map_cons, List.map_nil,
            List.flatten_cons, List.flatten_nil, List.append_nil]
          rw [h1, h2]
          rw [show pySlice mem (base + id0 * sec_size)
              (base + id0 * sec_size + sec_size) =
            sector_bytes mem base sec_size id0 from rfl]
          simp [chain_bytes]
        have hchlen : (chain_bytes mem base sec_size (id0 :: rest)).length =
            (1 + rest.length) * sec_size := by
          rw [chain_bytes_length mem base sec_size _ hbnd]
          simp [Nat.add_comm]
        have hexp : expected ≤ (1 + rest.length) * sec_size := by
          calc expected ≤ ((expected + sec_size - 1) / sec_size) * sec_size :=
                le_ceil_mul expected sec_size hsec
            _ = (1 + rest.length) * sec_size := by rw [← hlencnt]; ring_nf
        by_cases hsl : slicesF = []
        · rw [if_pos hsl]
          refine ⟨.whole, spF, seenF, rfl, ?_⟩
          subst hsl
          simp only [List.nil_append, List.map_cons, List.map_nil,
            List.flatten_cons, List.flatten_nil, List.append_nil] at hchain
          have hslen : (pySlice mem spF.toNat epF.toNat).length =
              (1 + rest.length) * sec_size := by
            rw [hchain, hchlen]
          have hwide : expected ≤ epF.toNat - spF.toNat := by
            rw [pySlice_length] at hslen
            omega
          show pySlice mem spF.toNat (spF.toNat + expected) = _
          rw [← pySlice_take mem spF.toNat epF.toNat expected hwide, hchain]
        · rw [if_neg hsl]
          by_cases hsz : expected < 1024 * 1024 * 90
          · rw [if_pos hsz]
            refine ⟨_, 0, seenF, rfl, ?_⟩
            show pySlice _ (0 : Int).toNat ((0 : Int).toNat + expected) = _
            rw [hchain]
            simp [pySlice]
          · rw [if_neg hsz]
            refine ⟨_, 0, seenF, rfl, ?_⟩
            show pySlice (scattered_eager mem (slicesF ++ [(spF, epF)]))
                (0 : Int).toNat ((0 : Int).toNat + expected) = _
            rw [show scattered_eager mem (slicesF ++ [(spF, epF)]) =
              ((slicesF ++ [(spF, epF)]).map
                (fun q => pySlice mem q.1.toNat q.2.toNat)).flatten from rfl]
            rw [hchain]
            simp [pySlice]

set_option maxRecDepth 4000 in
theorem C3_seen_revisit_strict_and_lenient_witness :
    (locate_stream
        (List.replicate 512 0 ++ [1, 2, 3, 4, 11, 12, 13, 14, 21, 22, 23, 24])
        512 [1, -2, -2] 4 0 8 false 7 [0, 9, 0] =
      .error "corruption: seen") ∧
    (∃ buf off seenF,
      locate_stream
          (List.replicate 512 0 ++ [1, 2, 3, 4, 11, 12, 13, 14, 21, 22, 23, 24])
          512 [1, -2, -2] 4 0 8 true 7 [0, 9, 0] =
        .ok (buf, off, 8, seenF) ∧
      located_bytes
          (List.replicate 512 0 ++ [1, 2, 3, 4, 11, 12, 13, 14, 21, 22, 23, 24])
          buf off 8 =
        (chain_bytes
          (List.replicate 512 0 ++ [1, 2, 3, 4, 11, 12, 13, 14, 21, 22, 23, 24])
          512 4 [0, 1]).take 8) := by
  have h := C3_seen_revisit_strict_and_lenient
    (List.replicate 512 0 ++ [1, 2, 3, 4, 11, 12, 13, 14, 21, 22, 23, 24])
    512 [1, -2, -2] 4 [0, 9, 0] 7 8 0 [0] [0, 1] 1
  refine ⟨?_, ?_⟩
  · exact h.1 (SatPath.cons (by decide) (by decide) (SatPath.nil _))
      (by decide) (by decide) (by decide) (by decide) (by decide) (by decide)
  · exact h.2
      (SatPath.cons (by decide) (by decide)
        (SatPath.cons (by decide) (by decide) (SatPath.nil _)))
      (by decide) (by decide) (by decide) (by decide) (by decide) (by decide)

/-! ## C1: the located stream round-trip and the `ScatteredMemory` view -/

/-- C1.  Evaluation of `ScatteredMemory.__getitem__` at the failing input:
over the backing file `[97, 98, 99, 100, 101, 102]` with fragments
`[(0, 2), (4, 6)]` (eager concatenation `[97, 98, 101, 102]`), integer
indexing at the cumulative-size boundary 2 returns byte 99 — the byte just
past the first fragment in the backing file, not part of the stream —
while the eager concatenation has byte 101 there; slice access over the
same view agrees with the eager concatenation.  `bisect_left` returns the
index of the *previous* fragment when the target index equals a cumulative
sum exactly (`bisect_right` would be correct), so the claim's
"indexing/slicing yields the same bytes as the eager concatenation" fails
at every fragment boundary. -/
theorem C1_scattered_getitem_boundary_bug :
    scattered_getitem [97, 98, 99, 100, 101, 102] [(0, 2), (4, 6)] 2 =
      .ok 99 ∧
    (scattered_eager [97, 98, 99, 100, 101, 102] [(0, 2), (4, 6)]).get? 2 =
      some 101 ∧
    (99 : Nat) ≠ 101 ∧
    scattered_getslice [97, 98, 99, 100, 101, 102] [(0, 2), (4, 6)] 0 4 =
      scattered_eager [97, 98, 99, 100, 101, 102] [(0, 2), (4, 6)] ∧
    scattered_getslice [97, 98, 99, 100, 101, 102] [(0, 2), (4, 6)] 1 3 =
      [98, 101] := by
  refine ⟨by rfl, by rfl, by decide, by rfl, by rfl⟩

/-! ## C6: shared-string continuation-fragment decoding -/

theorem drop_all_of_units (ob : Nat) (payload : List Nat)
    (heven : ob &&& 1 ≠ 0 → 2 ∣ payload.length) :
    (if ob &&& 1 ≠ 0 then 2 else 1) * fragUnits ob payload = payload.length := by
  unfold fragUnits
  by_cases hm : ob &&& 1 ≠ 0
  · rw [if_pos hm, if_pos hm]
    obtain ⟨k, hk⟩ := heven hm
    omega
  · rw [if_neg hm, if_neg hm]
    omega

/-- The character-accumulation loop, fed a fragment whose remaining payload
decodes to `cps0` and continuation fragments jointly decoding to `cpsR`,
with the requested character count equal to the total carried count,
consumes all fragments and accumulates exactly the concatenated decode. -/
theorem sst_char_loop_spec :
    ∀ (conts : List (List Nat)) (acc : List Nat) (ob : Nat) (data : List Nat)
      (pos : Nat) (cps0 cpsR : List Nat),
    pos ≤ data.length →
    fragDecode ob (data.drop pos) = some cps0 →
    (ob &&& 1 ≠ 0 → 2 ∣ (data.drop pos).length) →
    (∀ c ∈ conts, contOk c) →
    contsDecode conts = some cpsR →
    ∃ dataF,
      sst_char_loop acc ob data pos conts
          (fragUnits ob (data.drop pos) + contsUnits conts) =
        .ok (acc ++ cps0 ++ cpsR, dataF.length, dataF, []) := by
  intro conts
  induction conts with
  | nil =>
      intro acc ob data pos cps0 cpsR hpos hdec heven _ hcd
      simp only [contsDecode, Option.some_inj] at hcd
      subst hcd
      refine ⟨data, ?_⟩
      rw [sst_char_loop]
      rw [show contsUnits [] = 0 from rfl, Nat.add_zero]
      by_cases hm : ob &&& 1 ≠ 0
      · rw [if_pos hm]
        have hu : fragUnits ob (data.drop pos) = (data.length - pos) / 2 := by
          unfold fragUnits
          rw [if_pos hm, List.length_drop]
        have heven2 : 2 ∣ (data.length - pos) := by
          have := heven hm
          rwa [List.length_drop] at this
        have hfull : 2 * ((data.length - pos) / 2) = data.length - pos :=
          Nat.mul_div_cancel' heven2
        have hmin : min ((data.length - pos) / 2) (fragUnits ob (data.drop pos)) =
            (data.length - pos) / 2 := by
          rw [hu]
          exact Nat.min_self _
        dsimp only
        rw [hmin]
        have hraw : pySlice data pos (pos + 2 * ((data.length - pos) / 2)) =
            data.drop pos := by
          unfold pySlice
          rw [hfull, show pos + (data.length - pos) - pos = data.length - pos
            from by omega]
          exact List.take_of_length_le (by rw [List.length_drop])
        rw [hraw]
        unfold fragDecode at hdec
        rw [if_pos hm] at hdec
        rw [hdec]
        try dsimp only
        rw [if_pos (by rw [hu])]
        rw [hfull, show pos + (data.length - pos) = data.length from by omega]
        simp
      · rw [if_neg hm]
        have hu : fragUnits ob (data.drop pos) = data.length - pos := by
          unfold fragUnits
          rw [if_neg hm, List.length_drop]
        have hmin : min (data.length - pos) (fragUnits ob (data.drop pos)) =
            data.length - pos := by
          rw [hu]
          exact Nat.min_self _
        dsimp only
        rw [hmin]
        have hraw : pySlice data pos (pos + (data.length - pos)) =
            data.drop pos := by
          unfold pySlice
          rw [show pos + (data.length - pos) - pos = data.length - pos
            from by omega]
          exact List.take_of_length_le (by rw [List.length_drop])
        rw [if_pos (by rw [hu])]
        rw [hraw]
        have hdecC : latin1Decode (data.drop pos) = cps0 := by
          unfold fragDecode at hdec
          rw [if_neg hm] at hdec
          simpa [latin1Decode] using hdec
        rw [hdecC, show pos + (data.length - pos) = data.length from by omega]
        simp
  | cons c conts' ih =>
      intro acc ob data pos cps0 cpsR hpos hdec heven hok hcd
      obtain ⟨ob', pl', rfl⟩ : ∃ ob' pl', c = ob' :: pl' := by
        cases c with
        | nil => exact absurd (hok [] (List.mem_cons_self _ _)) (by simp [contOk])
        | cons a b => exact ⟨a, b, rfl⟩
      obtain ⟨heven1, hu1⟩ := hok (ob' :: pl') (List.mem_cons_self _ _)
      have hok' : ∀ x ∈ conts', contOk x := fun x hx =>
        hok x (List.mem_cons_of_mem _ hx)
      simp only [contsDecode] at hcd
      rcases hfx : fragDecode ob' pl' with _ | x
      · rw [hfx] at hcd
        simp at hcd
      rcases hfy : contsDecode conts' with _ | y
      · rw [hfx, hfy] at hcd
        simp at hcd
      rw [hfx, hfy] at hcd
      simp only [Option.some_inj] at hcd
      subst hcd
      have hCu : contsUnits ((ob' :: pl') :: conts') =
          fragUnits ob' pl' + contsUnits conts' := rfl
      have hCu1 : 1 ≤ contsUnits ((ob' :: pl') :: conts') := by
        rw [hCu]
        omega
      rw [sst_char_loop]
      by_cases hm : ob &&& 1 ≠ 0
      · rw [if_pos hm]
        have hu : fragUnits ob (data.drop pos) = (data.length - pos) / 2 := by
          unfold fragUnits
          rw [if_pos hm, List.length_drop]
        have heven2 : 2 ∣ (data.length - pos) := by
          have := heven hm
          rwa [List.length_drop] at this
        have hfull : 2 * ((data.length - pos) / 2) = data.length - pos :=
          Nat.mul_div_cancel' heven2
        have hmin : min ((data.length - pos) / 2)
            (fragUnits ob (data.drop pos) + contsUnits ((ob' :: pl') :: conts')) =
            (data.length - pos) / 2 := by
          rw [hu]
          exact Nat.min_eq_left (Nat.le_add_right _ _)
        dsimp only
        rw [hmin]
        have hraw : pySlice data pos (pos + 2 * ((data.length - pos) / 2)) =
            data.drop pos := by
          unfold pySlice
          rw [hfull, show pos + (data.length - pos) - pos = data.length - pos
            from by omega]
          exact List.take_of_length_le (by rw [List.length_drop])
        rw [hraw]
        unfold fragDecode at hdec
        rw [if_pos hm] at hdec
        rw [hdec]
        try dsimp only
        rw [if_neg (by rw [hu]; omega)]
        rw [if_neg (show ¬(((ob' :: pl') :: conts').length = 0) from by simp)]
        rw [if_neg (show ¬((((ob' :: pl') :: conts').headD []).length = 0)
          from by simp)]
        simp only [List.headD_cons, List.drop_succ_cons, List.drop_zero]
        have harg : fragUnits ob (data.drop pos) +
            contsUnits ((ob' :: pl') :: conts') - (data.length - pos) / 2 =
            fragUnits ob' ((ob' :: pl').drop 1) + contsUnits conts' := by
          rw [hu, hCu]
          simp only [List.drop_succ_cons, List.drop_zero]
          omega
        rw [harg]
        obtain ⟨dataF, hF⟩ := ih (acc ++ cps0) ob' (ob' :: pl') 1 x y
          (by simp) (by simpa using hfx) (by simpa using heven1) hok' hfy
        refine ⟨dataF, ?_⟩
        rw [hF]
        simp
      · rw [if_neg hm]
        have hu : fragUnits ob (data.drop pos) = data.length - pos := by
          unfold fragUnits
          rw [if_neg hm, List.length_drop]
        have hmin : min (data.length - pos)
            (fragUnits ob (data.drop pos) + contsUnits ((ob' :: pl') :: conts')) =
            data.length - pos := by
          rw [hu]
          exact Nat.min_eq_left (Nat.le_add_right _ _)
        dsimp only
        rw [hmin]
        have hraw : pySlice data pos (pos + (data.length - pos)) =
            data.drop pos := by
          unfold pySlice
          rw [show pos + (data.length - pos) - pos = data.length - pos
            from by omega]
          exact List.take_of_length_le (by rw [List.length_drop])
        rw [if_neg (by rw [hu]; omega)]
        rw [if_neg (show ¬(((ob' :: pl') :: conts').length = 0) from by simp)]
        rw [if_neg (show ¬((((ob' :: pl') :: conts').headD []).length = 0)
          from by simp)]
        rw [hraw]
        have hdecC : latin1Decode (data.drop pos) = cps0 := by
          unfold fragDecode at hdec
          rw [if_neg hm] at hdec
          simpa [latin1Decode] using hdec
        rw [hdecC]
        simp only [List.headD_cons, List.drop_succ_cons, List.drop_zero]
        have harg : fragUnits ob (data.drop pos) +
            contsUnits ((ob' :: pl') :: conts') - (data.length - pos) =
            fragUnits ob' ((ob' :: pl').drop 1) + contsUnits conts' := by
          rw [hu, hCu]
          simp only [List.drop_succ_cons, List.drop_zero]
          omega
        rw [harg]
        obtain ⟨dataF, hF⟩ := ih (acc ++ cps0) ob' (ob' :: pl') 1 x y
          (by simp) (by simpa using hfx) (by simpa using heven1) hok' hfy
        refine ⟨dataF, ?_⟩
        rw [hF]
        simp

/-- A single-string SST record whose character payload is spread over a
leading fragment plus well-formed continuation fragments (each with its
own option byte) decodes to the concatenation of the per-fragment
decodes, consuming every fragment. -/
theorem sst_single_string (hdr8 : List Nat) (nchars ob : Nat)
    (payload : List Nat) (conts : List (List Nat)) (cps0 cpsR : List Nat)
    (hhdr : hdr8.length = 8)
    (hob8 : ob &&& 0x08 = 0) (hob4 : ob &&& 0x04 = 0)
    (hdec0 : fragDecode ob payload = some cps0)
    (heven0 : ob &&& 1 ≠ 0 → 2 ∣ payload.length)
    (hok : ∀ c ∈ conts, contOk c)
    (hcd : contsDecode conts = some cpsR)
    (hneed : nchars = fragUnits ob payload + contsUnits conts) :
    unpack_SST_table
        ((hdr8 ++ [nchars % 256, nchars / 256, ob] ++ payload) :: conts) 1 =
      .ok ([cps0 ++ cpsR], []) := by
  have hstep : unpack_SST_table
      ((hdr8 ++ [nchars % 256, nchars / 256, ob] ++ payload) :: conts) 1 =
      sst_strings_loop [] [] (hdr8 ++ [nchars % 256, nchars / 256, ob] ++ payload)
        8 conts 1 := rfl
  rw [hstep]
  have hlen : (hdr8 ++ [nchars % 256, nchars / 256, ob] ++ payload).length =
      11 + payload.length := by
    simp [hhdr]
    omega
  have hg8 : (hdr8 ++ [nchars % 256, nchars / 256, ob] ++ payload).getD 8 0 =
      nchars % 256 := by
    rw [List.append_assoc,
      List.getD_append_right _ _ _ _ (by rw [hhdr])]
    simp [hhdr]
  have hg9 : (hdr8 ++ [nchars % 256, nchars / 256, ob] ++ payload).getD 9 0 =
      nchars / 256 := by
    rw [List.append_assoc,
      List.getD_append_right _ _ _ _ (by rw [hhdr]; omega)]
    simp [hhdr]
  have hu2 : unpack2LE (hdr8 ++ [nchars % 256, nchars / 256, ob] ++ payload) 8 =
      nchars := by
    unfold unpack2LE
    rw [hg8, hg9]
    omega
  have hg10 : (hdr8 ++ [nchars % 256, nchars / 256, ob] ++ payload).get? 10 =
      some ob := by
    rw [List.append_assoc,
      List.get?_append_right (by rw [hhdr]; omega)]
    simp [hhdr]
  have hdrop : (hdr8 ++ [nchars % 256, nchars / 256, ob] ++ payload).drop 11 =
      payload := by
    rw [List.append_assoc,
      show (11 : Nat) = hdr8.length + 3 from by omega,
      List.drop_append]
    rfl
  rw [show (1 : Nat) = 0 + 1 from rfl]
  rw [sst_strings_loop]
  rw [if_neg (by omega)]
  try dsimp only
  rw [hu2, hg10]
  try dsimp only
  rw [if_neg (show ¬(ob &&& 8 ≠ 0) from by simp [hob8])]
  try dsimp only
  rw [if_neg (show ¬(ob &&& 4 ≠ 0) from by simp [hob4])]
  try dsimp only
  obtain ⟨dataF, hF⟩ := sst_char_loop_spec conts [] ob
    (hdr8 ++ [nchars % 256, nchars / 256, ob] ++ payload) 11 cps0 cpsR
    (by omega) (by rw [hdrop]; exact hdec0) (by rw [hdrop]; exact heven0)
    hok hcd
  rw [hdrop, ← hneed] at hF
  rw [hF]
  try dsimp only
  rw [if_neg (by simp)]
  try dsimp only
  simp only [Int.add_zero, Int.toNat_natCast]
  rw [if_pos (Nat.le_refl _)]
  rw [Nat.sub_self]
  rw [if_neg (by simp)]
  rw [sst_strings_loop]
  simp

/-- The character loop on a wide fragment that ends between the two
halves of a surrogate pair: decoding the truncated unit sequence fails. -/
theorem charloop_surrogate_split :
    sst_char_loop [] 1 [0, 0, 0, 0, 0, 0, 0, 0, 2, 0, 1, 0x00, 0xD8] 11
      [[1, 0x00, 0xDC]] 2 =
      .error "UnicodeDecodeError: utf_16_le" := by
  rw [sst_char_loop]
  norm_num [pySlice, utf16leDecode]

/-- The character loop on the same string encoded without a split: the
surrogate pair decodes to the single code point U+10000. -/
theorem charloop_surrogate_whole :
    sst_char_loop [] 1 [0, 0, 0, 0, 0, 0, 0, 0, 2, 0, 1, 0x00, 0xD8, 0x00, 0xDC]
      11 [] 2 =
      .ok ([65536], 15,
        [0, 0, 0, 0, 0, 0, 0, 0, 2, 0, 1, 0x00, 0xD8, 0x00, 0xDC], []) := by
  rw [sst_char_loop]
  norm_num [pySlice, utf16leDecode]

/-- C6, counterexample.  The claim says a split exactly at a continuation
boundary always decodes to the same text as the unsplit encoding,
including strings needing surrogate pairs; but a 2-character string whose
UTF-16 payload is split between the high and low surrogate halves raises
`UnicodeDecodeError` (the fragment's own decode of a lone high surrogate
fails and `unpack_SST_table` re-raises), while the unsplit encoding
decodes to U+10000. -/
theorem C6_counterexample :
    unpack_SST_table
        [[0, 0, 0, 0, 0, 0, 0, 0, 2, 0, 1, 0x00, 0xD8], [1, 0x00, 0xDC]] 1 =
      .error "UnicodeDecodeError: utf_16_le" ∧
    unpack_SST_table
        [[0, 0, 0, 0, 0, 0, 0, 0, 2, 0, 1, 0x00, 0xD8, 0x00, 0xDC]] 1 =
      .ok ([[65536]], []) := by
  constructor
  · show sst_strings_loop [] []
      [0, 0, 0, 0, 0, 0, 0, 0, 2, 0, 1, 0x00, 0xD8] 8 [[1, 0x00, 0xDC]] 1 = _
    rw [show (1 : Nat) = 0 + 1 from rfl, sst_strings_loop]
    norm_num [unpack2LE, charloop_surrogate_split]
  · show sst_strings_loop [] []
      [0, 0, 0, 0, 0, 0, 0, 0, 2, 0, 1, 0x00, 0xD8, 0x00, 0xDC] 8 [] 1 = _
    rw [show (1 : Nat) = 0 + 1 from rfl, sst_strings_loop]
    norm_num [unpack2LE, charloop_surrogate_whole]
    rw [sst_strings_loop]

/-- C6, amended.  A single-string SST record split exactly at a
continuation boundary — each continuation fragment carrying its own
option byte, which may switch the encoding mode mid-string — decodes to
the same text as an equivalent unsplit encoding, provided each fragment
payload decodes on its own (in particular, no continuation boundary falls
between the two halves of a surrogate pair) and the per-fragment
character counts add up to the declared count.  The split and unsplit
tables agree and both equal the concatenated per-fragment decode. -/
theorem C6_continuation_split_decode
    (hdr8 : List Nat) (nchars ob obU : Nat) (payload payloadU : List Nat)
    (conts : List (List Nat)) (cps0 cpsR : List Nat)
    (hhdr : hdr8.length = 8)
    (hob8 : ob &&& 0x08 = 0) (hob4 : ob &&& 0x04 = 0)
    (hobU8 : obU &&& 0x08 = 0) (hobU4 : obU &&& 0x04 = 0)
    (hdec0 : fragDecode ob payload = some cps0)
    (heven0 : ob &&& 1 ≠ 0 → 2 ∣ payload.length)
    (hok : ∀ c ∈ conts, contOk c)
    (hcd : contsDecode conts = some cpsR)
    (hneed : nchars = fragUnits ob payload + contsUnits conts)
    (hdecU : fragDecode obU payloadU = some (cps0 ++ cpsR))
    (hevenU : obU &&& 1 ≠ 0 → 2 ∣ payloadU.length)
    (hneedU : nchars = fragUnits obU payloadU) :
    unpack_SST_table
        ((hdr8 ++ [nchars % 256, nchars / 256, ob] ++ payload) :: conts) 1 =
      unpack_SST_table [hdr8 ++ [nchars % 256, nchars / 256, obU] ++ payloadU] 1 ∧
    unpack_SST_table
        ((hdr8 ++ [nchars % 256, nchars / 256, ob] ++ payload) :: conts) 1 =
      .ok ([cps0 ++ cpsR], []) := by
  have h1 := sst_single_string hdr8 nchars ob payload conts cps0 cpsR hhdr
    hob8 hob4 hdec0 heven0 hok hcd hneed
  have h2 := sst_single_string hdr8 nchars obU payloadU [] (cps0 ++ cpsR) []
    hhdr hobU8 hobU4 hdecU hevenU (by intro c hc; cases hc) rfl
    (by simpa [contsUnits] using hneedU)
  refine ⟨?_, h1⟩
  rw [h1, h2]
  simp

theorem C6_continuation_split_decode_witness :
    unpack_SST_table
        (([0, 0, 0, 0, 0, 0, 0, 0] ++ [2 % 256, 2 / 256, 1] ++ [65, 0]) ::
          [[1, 66, 0]]) 1 =
      unpack_SST_table
        [[0, 0, 0, 0, 0, 0, 0, 0] ++ [2 % 256, 2 / 256, 1] ++ [65, 0, 66, 0]] 1 ∧
    unpack_SST_table
        (([0, 0, 0, 0, 0, 0, 0, 0] ++ [2 % 256, 2 / 256, 1] ++ [65, 0]) ::
          [[1, 66, 0]]) 1 =
      .ok ([[65] ++ [66]], []) :=
  C6_continuation_split_decode [0, 0, 0, 0, 0, 0, 0, 0] 2 1 1 [65, 0]
    [65, 0, 66, 0] [[1, 66, 0]] [65] [66] (by decide) (by decide) (by decide)
    (by decide) (by decide) (by decide) (by decide)
    (by intro c hc
        simp only [List.mem_singleton] at hc
        subst hc
        exact ⟨by decide, by decide⟩)
    (by decide) (by decide) (by decide) (by decide) (by decide)


theorem C4_filepass_always_fails_witness :
    (parse_globals (σ := Unit) (fun _ _ s => s) 0 80 ()
        [(0xFC, [1, 2]), (XL_FILEPASS, [0, 0, 1, 2, 3, 4]), (XL_EOF, [])]).isOk
        = false ∧
    parse_globals (σ := Unit) (fun _ _ s => s) 0 80 ()
        [(0xFC, [1, 2]), (XL_FILEPASS, [0, 0, 1, 2, 3, 4]), (XL_EOF, [])] =
      .error "Workbook is encrypted" := by
  have h := (C4_filepass_always_fails (σ := Unit) (fun _ _ s => s) 0 80 ()
    [(0xFC, [1, 2])] [(XL_EOF, [])] [0, 0, 1, 2, 3, 4]).1 (by decide)
  exact ⟨h.1, h.2 (by decide)⟩

end Xlrd
